import Mathlib

/-!
Verification of the mortgage-scenarios simulation core (App.tsx).

Shallow embedding conventions:
* JavaScript numbers are modelled as exact rationals (`ℚ`); numeric literals in
  the source (`0.005`, `0.07`, ...) are mapped to their decimal values.
  Every value of `ℚ` is finite, so the source's `isFinite` guards, which can
  only fail through floating-point overflow, are modelled as always passing.
* TypeScript optional fields (`investmentDifference?`, ...) become `Option ℚ`.
* In-place mutation of the processed scenario list becomes functional update;
  the engine's `JSON.parse(JSON.stringify(...))` deep copy is modelled by the
  structural copy `deepCopyScenario` below.
* The loan term is modelled as a natural number (the UI collects an integer
  number of years); `term <= 0` therefore becomes `term = 0`.
-/

/-- Down payment entry mode (`'amount' | 'percent'`). -/
inductive DownPaymentType : Type
  | amount
  | percent
deriving DecidableEq, Repr

/-- One year of the amortization / investment schedule (`YearlyPaymentData`). -/
structure YearlyPaymentData where
  year : ℕ
  beginningBalance : ℚ
  interestPaidYearly : ℚ
  principalPaidYearly : ℚ
  endingBalance : ℚ
  totalPrincipalPaid : ℚ
  totalInterestPaid : ℚ
  annualCost : ℚ
  investmentDifference : Option ℚ := none
  cumulativeInvestmentValue : Option ℚ := none
  investmentProfitYearly : Option ℚ := none
  totalNetWorth : Option ℚ := none
  performancePercentage : Option ℚ := none
  netWorthDifference : Option ℚ := none
deriving DecidableEq, Repr

/-- A mortgage scenario (`Scenario`). -/
structure Scenario where
  name : String
  downPayment : ℚ
  downPaymentInput : ℚ
  downPaymentType : DownPaymentType
  interestRate : ℚ
  term : ℕ
  monthlyPayment : ℚ
  yearlyData : List YearlyPaymentData
deriving DecidableEq, Repr

/-- `Math.min` on exact rationals, written with an explicit `if` so that it
evaluates by kernel reduction. -/
def qmin (a b : ℚ) : ℚ := if a ≤ b then a else b

/-- `Math.max` on exact rationals, written with an explicit `if`. -/
def qmax (a b : ℚ) : ℚ := if a ≤ b then b else a

/-- `Math.abs` on exact rationals, written with an explicit `if`. -/
def qabs (a : ℚ) : ℚ := if a < 0 then -a else a

/-- `getActualDownPayment` from the source. -/
def getActualDownPayment (homePrice downPaymentInput : ℚ)
    (downPaymentType : DownPaymentType) : ℚ :=
  match downPaymentType with
  | .amount => downPaymentInput
  | .percent => homePrice * (downPaymentInput / 100)

/-- The `0.005` currency snap threshold used by the amortization loop. -/
def snapThreshold : ℚ := 1 / 200

/-- The body of one month of the amortization loop: interest and principal for
the month, after the overshoot clamp (`principalForMonth > balance`). -/
def monthBody (monthlyRate monthlyPayment balance : ℚ) : ℚ × ℚ :=
  let i0 := if monthlyRate = 0 then 0 else balance * monthlyRate
  let p0 := if monthlyRate = 0 then qmin balance monthlyPayment else monthlyPayment - i0
  if balance < p0 then
    let i1 := if monthlyRate = 0 then 0 else balance * monthlyRate
    (if i1 < 0 then 0 else i1, balance)
  else
    (i0, p0)

/-- The inner `for (month = 1; month <= 12; ...)` loop.  `k` is the number of
month iterations left in the current year, `cm` the 1-based overall month
number (`currentMonth` in the source); the state is
`(balance, interestPaidYearly, principalPaidYearly)`.  Returning the state
without a recursive call models `break`. -/
def monthsLoop (monthlyRate monthlyPayment : ℚ) (numberOfPayments : ℕ) :
    ℕ → ℕ → ℚ × ℚ × ℚ → ℚ × ℚ × ℚ
  | 0, _, st => st
  | k + 1, cm, (balance, iY, pY) =>
    if numberOfPayments < cm ∨ balance ≤ snapThreshold then (balance, iY, pY)
    else
      let ip := monthBody monthlyRate monthlyPayment balance
      let b1 := balance - ip.2
      let b2 := if b1 < snapThreshold then 0 else b1
      monthsLoop monthlyRate monthlyPayment numberOfPayments k (cm + 1)
        (b2, iY + ip.1, pY + ip.2)

/-- The outer `for (year = 1; year <= termYears; ...)` loop.  `k` is the number
of year iterations left; each iteration runs twelve month iterations, pushes a
yearly record and stops (`break`) once the balance is zero. -/
def yearsLoop (monthlyRate monthlyPayment : ℚ) (numberOfPayments : ℕ) :
    ℕ → ℕ → ℚ → ℚ → ℚ → List YearlyPaymentData
  | 0, _, _, _, _ => []
  | k + 1, year, balance, tpp, tip =>
    let s := monthsLoop monthlyRate monthlyPayment numberOfPayments 12
      ((year - 1) * 12 + 1) (balance, 0, 0)
    let b2 := s.1
    let iY := s.2.1
    let pY := s.2.2
    let rec0 : YearlyPaymentData :=
      { year := year
        beginningBalance := balance
        interestPaidYearly := iY
        principalPaidYearly := pY
        endingBalance := b2
        totalPrincipalPaid := tpp + pY
        totalInterestPaid := tip + iY
        annualCost := pY + iY }
    if b2 ≤ 0 then [rec0]
    else rec0 :: yearsLoop monthlyRate monthlyPayment numberOfPayments k (year + 1) b2
      (tpp + pY) (tip + iY)

/-- The single yearly record returned for a zero-principal loan. -/
def zeroPrincipalRecord : YearlyPaymentData :=
  { year := 1
    beginningBalance := 0
    interestPaidYearly := 0
    principalPaidYearly := 0
    endingBalance := 0
    totalPrincipalPaid := 0
    totalInterestPaid := 0
    annualCost := 0 }

/-- `calculateMortgageAmortization`.  Over `ℚ` the monthly payment is always
finite, so the source's `isFinite` failure branch cannot fire (its only trigger
is floating-point overflow); the division `(1+r)^n - 1` is nonzero whenever the
rate is positive. -/
def calculateMortgageAmortization (principal annualRate : ℚ) (termYears : ℕ) :
    Option (List YearlyPaymentData × ℚ) :=
  if principal < 0 ∨ annualRate < 0 ∨ termYears = 0 then none
  else if principal = 0 then some ([zeroPrincipalRecord], 0)
  else
    let monthlyRate := annualRate / 12 / 100
    let n := termYears * 12
    let monthlyPayment :=
      if monthlyRate = 0 then principal / (n : ℚ)
      else principal * (monthlyRate * (1 + monthlyRate) ^ n) /
        ((1 + monthlyRate) ^ n - 1)
    some (yearsLoop monthlyRate monthlyPayment n termYears 1 principal 0 0, monthlyPayment)

/-- Result of `validateScenarioInputs`. -/
inductive ValidationResult : Type
  | invalid (message : String)
  | valid (scenarioName : String) (actualDownPayment principal : ℚ)
deriving DecidableEq, Repr

/-- Whitespace characters removed by JavaScript's `String.prototype.trim`
(restricted to the ASCII ones relevant here). -/
def isJsWhitespace (c : Char) : Bool :=
  c == ' ' || c == '\t' || c == '\n' || c == '\r'

/-- `String.prototype.trim`: strip leading and trailing whitespace. -/
def jsTrim (s : String) : String :=
  String.mk (((s.data.dropWhile isJsWhitespace).reverse.dropWhile isJsWhitespace).reverse)

/-- Resolved scenario name: the trimmed proposed name, or the auto-generated
default when the trimmed name is empty (`newName?.trim() || 'Scenario N'`). -/
def resolveScenarioName (newName : String) (existingCount : ℕ) : String :=
  if jsTrim newName ≠ "" then jsTrim newName
  else "Scenario " ++ toString (existingCount + 1)

/-- `validateScenarioInputs`.  The duplicate-name check is guarded by the JS
truthiness of the raw, untrimmed `newName`: it only runs when the proposed
string is non-empty (a whitespace-only string is truthy, so its resolved
default is still collision-checked; only the literally empty string skips). -/
def validateScenarioInputs (homePrice downPaymentInput : ℚ)
    (downPaymentType : DownPaymentType) (interestRate : ℚ) (term : ℕ)
    (existingScenarioNames : List String) (newName : String) : ValidationResult :=
  let scenarioName := resolveScenarioName newName existingScenarioNames.length
  if newName ≠ "" ∧ scenarioName ∈ existingScenarioNames then
    .invalid ("Scenario name \"" ++ scenarioName ++
      "\" already exists. Please choose a unique name.")
  else
    let actualDownPayment := getActualDownPayment homePrice downPaymentInput downPaymentType
    if downPaymentType = .percent ∧ (downPaymentInput < 0 ∨ 100 < downPaymentInput) then
      .invalid ("Down payment percentage must be between 0 and 100.")
    else if actualDownPayment < 0 then
      .invalid ("Down payment cannot be negative.")
    else if homePrice < actualDownPayment then
      .invalid ("Down payment cannot be greater than the home price.")
    else
      let principal := homePrice - actualDownPayment
      if principal = 0 ∧ interestRate ≠ 0 then
        .invalid ("If down payment covers the full home price (0 principal), the interest rate must be 0.")
      else if interestRate < 0 then
        .invalid ("Interest rate cannot be negative.")
      else if term = 0 then
        .invalid ("Term must be positive.")
      else
        .valid scenarioName actualDownPayment principal

/-- `addScenario`: validate, amortize, and append to the registry; on any
failure the registry is returned unchanged together with the alert message. -/
def addScenario (scenarios : List Scenario) (homePrice newDownPaymentValue : ℚ)
    (newDownPaymentType : DownPaymentType) (newInterestRate : ℚ) (newTerm : ℕ)
    (newScenarioName : String) : List Scenario × Option String :=
  match validateScenarioInputs homePrice newDownPaymentValue newDownPaymentType
      newInterestRate newTerm (scenarios.map (fun s => s.name)) newScenarioName with
  | .invalid msg => (scenarios, some msg)
  | .valid nm adp principal =>
    match calculateMortgageAmortization principal newInterestRate newTerm with
    | none => (scenarios, some ("Could not calculate mortgage amortization. Please check input values."))
    | some (yd, mp) =>
      (scenarios ++ [{ name := nm
                       downPayment := adp
                       downPaymentInput := newDownPaymentValue
                       downPaymentType := newDownPaymentType
                       interestRate := newInterestRate
                       term := newTerm
                       monthlyPayment := mp
                       yearlyData := yd }], none)

/-! ## The Investment Comparison Engine -/

/-- `INVESTMENT_RATE = 0.07`. -/
def INVESTMENT_RATE : ℚ := 7 / 100

/-- `scenario.yearlyData?.find((d) => d.year === year)`. -/
def findYear (l : List YearlyPaymentData) (y : ℕ) : Option YearlyPaymentData :=
  l.find? (fun d => d.year == y)

/-- The fields produced by `calculateYearlyScenarioUpdate` (the
`Partial<YearlyPaymentData>` it returns always carries exactly these). -/
structure ScenarioYearUpdate where
  investmentDifference : ℚ
  cumulativeInvestmentValue : ℚ
  investmentProfitYearly : ℚ
  totalNetWorth : ℚ
  netWorthDifference : ℚ
  totalPrincipalPaid : ℚ
  totalInterestPaid : ℚ
deriving DecidableEq, Repr

/-- The ended / data-missing branch of `calculateYearlyScenarioUpdate`:
`(investmentAmount, currentCumulativeValue, totalPrincipalPaid,
totalInterestPaid, totalNetWorth)`. -/
def inactiveCore (scenario : Scenario) (previousCumulativeValue investmentRate
    carriedTpp carriedTip : ℚ) : ℚ × ℚ × ℚ × ℚ × ℚ :=
  let currentCumulativeValue := previousCumulativeValue * (1 + investmentRate)
  let lastData := scenario.yearlyData.getLast?
  let tpp := (lastData.map (fun d => d.totalPrincipalPaid)).getD carriedTpp
  let tip := (lastData.map (fun d => d.totalInterestPaid)).getD carriedTip
  (0, currentCumulativeValue, tpp, tip, scenario.downPayment + tpp + currentCumulativeValue)

/-- `calculateYearlyScenarioUpdate`. -/
def calculateYearlyScenarioUpdate (scenario : Scenario) (year : ℕ)
    (maxAnnualCost previousCumulativeValue initialInvestmentValue investmentRate : ℚ) :
    ScenarioYearUpdate :=
  let dataForYear := findYear scenario.yearlyData year
  let dataForPreviousYear := findYear scenario.yearlyData (year - 1)
  let yearlyProfit := previousCumulativeValue * investmentRate
  let carriedTpp := (dataForPreviousYear.map (fun d => d.totalPrincipalPaid)).getD 0
  let carriedTip := (dataForPreviousYear.map (fun d => d.totalInterestPaid)).getD 0
  let core :=
    match dataForYear with
    | some d =>
      if year ≤ scenario.term then
        let investmentAmount :=
          if 0 < maxAnnualCost then maxAnnualCost - d.annualCost else 0
        let currentCumulativeValue :=
          previousCumulativeValue * (1 + investmentRate) + investmentAmount
        (investmentAmount, currentCumulativeValue, d.totalPrincipalPaid, d.totalInterestPaid,
          scenario.downPayment + d.totalPrincipalPaid + currentCumulativeValue)
      else
        inactiveCore scenario previousCumulativeValue investmentRate carriedTpp carriedTip
    | none =>
      inactiveCore scenario previousCumulativeValue investmentRate carriedTpp carriedTip
  let prevNetWorth :=
    if year = 1 then scenario.downPayment + initialInvestmentValue
    else (dataForPreviousYear.bind (fun d => d.totalNetWorth)).getD 0
  { investmentDifference := core.1
    cumulativeInvestmentValue := core.2.1
    investmentProfitYearly := yearlyProfit
    totalNetWorth := core.2.2.2.2
    netWorthDifference := core.2.2.2.2 - prevNetWorth
    totalPrincipalPaid := core.2.2.1
    totalInterestPaid := core.2.2.2.1 }

/-- Apply `f` to the first record of the given year (the functional counterpart
of mutating the record that `find` returned). -/
def updateFirstYear (l : List YearlyPaymentData) (y : ℕ)
    (f : YearlyPaymentData → YearlyPaymentData) : List YearlyPaymentData :=
  match l with
  | [] => []
  | d :: t => if d.year == y then f d :: t else d :: updateFirstYear t y f

/-- `Object.assign(dataForYear, calculatedUpdate)`. -/
def applyUpdate (d : YearlyPaymentData) (u : ScenarioYearUpdate) : YearlyPaymentData :=
  { d with
    investmentDifference := some u.investmentDifference
    cumulativeInvestmentValue := some u.cumulativeInvestmentValue
    investmentProfitYearly := some u.investmentProfitYearly
    totalNetWorth := some u.totalNetWorth
    netWorthDifference := some u.netWorthDifference
    totalPrincipalPaid := u.totalPrincipalPaid
    totalInterestPaid := u.totalInterestPaid }

/-- The zero-valued placeholder record pushed by `ensureYearlyDataExists`. -/
def placeholderRecord (y : ℕ) (u : ScenarioYearUpdate) : YearlyPaymentData :=
  { year := y
    beginningBalance := 0
    interestPaidYearly := 0
    principalPaidYearly := 0
    endingBalance := 0
    annualCost := 0
    totalPrincipalPaid := u.totalPrincipalPaid
    totalInterestPaid := u.totalInterestPaid
    investmentDifference := some u.investmentDifference
    cumulativeInvestmentValue := some u.cumulativeInvestmentValue
    investmentProfitYearly := some u.investmentProfitYearly
    totalNetWorth := some u.totalNetWorth
    netWorthDifference := some u.netWorthDifference }

/-- `ensureYearlyDataExists`: returns the updated scenario together with the
record holding the year's data. -/
def ensureYearlyDataExists (s : Scenario) (y : ℕ) (u : ScenarioYearUpdate) :
    Scenario × YearlyPaymentData :=
  match findYear s.yearlyData y with
  | none =>
    let d := placeholderRecord y u
    ({ s with yearlyData := s.yearlyData ++ [d] }, d)
  | some d =>
    ({ s with yearlyData := updateFirstYear s.yearlyData y (fun dd => applyUpdate dd u) },
      applyUpdate d u)

/-- One scenario's performance entry for the year.  The capped `Infinity` of
`denominator === 0 && totalNetWorth !== 0` becomes `100` directly
(`Infinity > 0` always holds). -/
def applyPerf (m : ℚ) (d : YearlyPaymentData) : YearlyPaymentData :=
  match d.totalNetWorth with
  | some nw =>
    let denominator := qabs m
    let performance :=
      if denominator = 0 then (if nw = 0 then (0 : ℚ) else 100)
      else ((nw - m) / denominator) * 100
    { d with performancePercentage := some performance }
  | none => { d with performancePercentage := some 0 }

/-- `calculatePerformancePercentage`; `maxNetWorthThisYear = -Infinity` is
modelled as `none`. -/
def calculatePerformancePercentage (ps : List Scenario) (y : ℕ)
    (maxNetWorthThisYear : Option ℚ) : List Scenario :=
  match maxNetWorthThisYear with
  | none =>
    ps.map (fun s =>
      { s with yearlyData :=
          updateFirstYear s.yearlyData y (fun d => { d with performancePercentage := some 0 }) })
  | some m =>
    ps.map (fun s =>
      { s with yearlyData := updateFirstYear s.yearlyData y (applyPerf m) })

/-- `Math.max` against a running maximum initialised to `-Infinity`. -/
def maxOptQ : Option ℚ → ℚ → Option ℚ
  | none, x => some x
  | some m, x => some (qmax m x)

/-- Step 1 of the per-year engine loop: the year's maximum annual cost over
scenarios whose term still covers the year. -/
def yearMaxAnnualCost (ps : List Scenario) (y : ℕ) : ℚ :=
  ps.foldl (fun m s =>
    match findYear s.yearlyData y with
    | some d => if y ≤ s.term then qmax m d.annualCost else m
    | none => m) 0

/-- Body of the Step-2 `forEach`: update one scenario for the year and thread
the cumulative-value map and the running maximum net worth. -/
def engineStep2Fold (initialInvestmentValues : String → ℚ) (investmentRate : ℚ)
    (y : ℕ) (maxAnnualCost : ℚ)
    (acc : List Scenario × (String → ℚ) × Option ℚ) (s : Scenario) :
    List Scenario × (String → ℚ) × Option ℚ :=
  let prev := acc.2.1 s.name
  let u := calculateYearlyScenarioUpdate s y maxAnnualCost prev
    (initialInvestmentValues s.name) investmentRate
  let sd := ensureYearlyDataExists s y u
  let cum2 : String → ℚ :=
    match sd.2.cumulativeInvestmentValue with
    | some v => fun nm => if nm = s.name then v else acc.2.1 nm
    | none => acc.2.1
  let mw2 :=
    match sd.2.totalNetWorth with
    | some v => maxOptQ acc.2.2 v
    | none => acc.2.2
  (acc.1 ++ [sd.1], cum2, mw2)

/-- Steps 1–3 of the engine for one simulated year;
the state is `(processedScenarios, currentCumulativeValues)`. -/
def engineYearStep (initialInvestmentValues : String → ℚ) (investmentRate : ℚ)
    (st : List Scenario × (String → ℚ)) (y : ℕ) : List Scenario × (String → ℚ) :=
  let ps := st.1
  let maxAnnualCost := yearMaxAnnualCost ps y
  let step2 := ps.foldl
    (engineStep2Fold initialInvestmentValues investmentRate y maxAnnualCost)
    ([], st.2, none)
  (calculatePerformancePercentage step2.1 y step2.2.2, step2.2.1)

/-- Per-scenario initial investable balance
(`max(0, initialInvestments - downPayment)`), keyed by scenario name with
later scenarios overwriting earlier ones of the same name; absent keys read 0
(the `|| 0` after lookup). -/
def initialInvestmentValuesMap (scenarios : List Scenario) (initialInvestments : ℚ) :
    String → ℚ :=
  scenarios.foldl
    (fun f s => fun nm => if nm = s.name then qmax 0 (initialInvestments - s.downPayment) else f nm)
    (fun _ => 0)

/-- `maxYears = Math.max(30, ...scenarios.map((s) => s.term))`. -/
def maxYears (scenarios : List Scenario) : ℕ :=
  scenarios.foldl (fun m s => max m s.term) 30

/-- Structural copy of a yearly record (`JSON` round-trip of one record). -/
def deepCopyYearly (d : YearlyPaymentData) : YearlyPaymentData :=
  { year := d.year
    beginningBalance := d.beginningBalance
    interestPaidYearly := d.interestPaidYearly
    principalPaidYearly := d.principalPaidYearly
    endingBalance := d.endingBalance
    totalPrincipalPaid := d.totalPrincipalPaid
    totalInterestPaid := d.totalInterestPaid
    annualCost := d.annualCost
    investmentDifference := d.investmentDifference
    cumulativeInvestmentValue := d.cumulativeInvestmentValue
    investmentProfitYearly := d.investmentProfitYearly
    totalNetWorth := d.totalNetWorth
    performancePercentage := d.performancePercentage
    netWorthDifference := d.netWorthDifference }

/-- Structural copy of a scenario (`JSON.parse(JSON.stringify(...))` of one
scenario; over `ℚ` no field can be a non-finite number, so the JSON round-trip
is lossless). -/
def deepCopyScenario (s : Scenario) : Scenario :=
  { name := s.name
    downPayment := s.downPayment
    downPaymentInput := s.downPaymentInput
    downPaymentType := s.downPaymentType
    interestRate := s.interestRate
    term := s.term
    monthlyPayment := s.monthlyPayment
    yearlyData := s.yearlyData.map deepCopyYearly }

/-- `scenariosWithInvestment`: the Investment Comparison Engine. -/
def scenariosWithInvestment (scenarios : List Scenario) (initialInvestments : ℚ) :
    List Scenario :=
  if scenarios.length < 1 then []
  else
    let processedScenarios := scenarios.map deepCopyScenario
    let initialInvestmentValues := initialInvestmentValuesMap processedScenarios initialInvestments
    ((List.range' 1 (maxYears scenarios)).foldl
      (engineYearStep initialInvestmentValues INVESTMENT_RATE)
      (processedScenarios, initialInvestmentValues)).1

/-- One UI recomputation of the derived snapshot: the registry value the code
reads (`scenarios`, untouched) paired with the engine output computed from the
deep copy. -/
def scenariosWithInvestmentRun (scenarios : List Scenario) (initialInvestments : ℚ) :
    List Scenario × List Scenario :=
  (scenarios, scenariosWithInvestment scenarios initialInvestments)

/-! ## Analytic companions of the amortization loop -/

/-- The level monthly payment computed by `calculateMortgageAmortization`
(the standard annuity formula, `principal / n` when the monthly rate is 0). -/
def annuityPayment (P r : ℚ) (n : ℕ) : ℚ :=
  if r = 0 then P / (n : ℚ) else P * (r * (1 + r) ^ n) / ((1 + r) ^ n - 1)

/-- Exact outstanding balance after `m` of `n` level payments at monthly rate
`r` on principal `P`: the closed form of the loop's recurrence
`balance := balance * (1 + r) - payment`. -/
def closedBalance (P r : ℚ) (n m : ℕ) : ℚ :=
  if r = 0 then P * ((n : ℚ) - m) / n
  else P * ((1 + r) ^ n - (1 + r) ^ m) / ((1 + r) ^ n - 1)

/-- Each record's beginning balance equals the previous record's ending
balance. -/
def chainedRecords : List YearlyPaymentData → Prop
  | [] => True
  | [_] => True
  | a :: b :: t => b.beginningBalance = a.endingBalance ∧ chainedRecords (b :: t)

/-! ## Concrete fixtures used by witnesses and counterexamples -/

/-- A paid-off scenario with zero down payment (for engine tests). -/
def cxScenarioA : Scenario :=
  { name := "A"
    downPayment := 0
    downPaymentInput := 0
    downPaymentType := .amount
    interestRate := 0
    term := 1
    monthlyPayment := 0
    yearlyData := [zeroPrincipalRecord] }

/-- A paid-off scenario with negative down payment: the engine accepts any
`Scenario` value, and this one drives its net worth negative. -/
def cxScenarioB : Scenario :=
  { name := "B"
    downPayment := -5
    downPaymentInput := -5
    downPaymentType := .amount
    interestRate := 0
    term := 1
    monthlyPayment := 0
    yearlyData := [zeroPrincipalRecord] }

/-- An existing registry entry whose name collides with the auto-generated
default name of a one-scenario registry. -/
def cxScenarioDup : Scenario :=
  { name := "Scenario 2"
    downPayment := 0
    downPaymentInput := 0
    downPaymentType := .amount
    interestRate := 0
    term := 1
    monthlyPayment := 0
    yearlyData := [] }

/-- The single yearly record produced for `principal = 1/250` (0.004): the
balance starts below the snap threshold, so no payment is ever made. -/
def cxTinyRecord1 : YearlyPaymentData :=
  { year := 1
    beginningBalance := 1 / 250
    interestPaidYearly := 0
    principalPaidYearly := 0
    endingBalance := 1 / 250
    totalPrincipalPaid := 0
    totalInterestPaid := 0
    annualCost := 0 }

/-- The single yearly record produced for `principal = 1/200` (0.005). -/
def cxTinyRecord2 : YearlyPaymentData :=
  { year := 1
    beginningBalance := 1 / 200
    interestPaidYearly := 0
    principalPaidYearly := 0
    endingBalance := 1 / 200
    totalPrincipalPaid := 0
    totalInterestPaid := 0
    annualCost := 0 }

/-- Relation between an input scenario and its engine-processed counterpart
after the first `k` simulated years: every year `1..k` has a record (a
zero-balance placeholder when the input schedule had none), and records for
later years are untouched. -/
def engineCoverageRel (k : ℕ) (s0 s : Scenario) : Prop :=
  (∀ y, 1 ≤ y → y ≤ k → ∃ d, findYear s.yearlyData y = some d ∧
    (findYear s0.yearlyData y = none →
      d.beginningBalance = 0 ∧ d.endingBalance = 0 ∧ d.annualCost = 0)) ∧
  (∀ y, k < y → findYear s.yearlyData y = findYear s0.yearlyData y)

/-- A record carrying a computed net worth (for performance-pass tests). -/
def cxPerfRecord : YearlyPaymentData :=
  { year := 1
    beginningBalance := 0
    interestPaidYearly := 0
    principalPaidYearly := 0
    endingBalance := 0
    totalPrincipalPaid := 0
    totalInterestPaid := 0
    annualCost := 0
    totalNetWorth := some 5 }

/-- A scenario whose year-1 record carries net worth 5. -/
def cxPerfScenario : Scenario :=
  { name := "W"
    downPayment := 0
    downPaymentInput := 0
    downPaymentType := .amount
    interestRate := 0
    term := 1
    monthlyPayment := 0
    yearlyData := [cxPerfRecord] }

/-- The schedule record of a one-year zero-rate loan on principal `1/2`. -/
def cxHalfRecord : YearlyPaymentData :=
  { year := 1
    beginningBalance := 1 / 2
    interestPaidYearly := 0
    principalPaidYearly := 1 / 2
    endingBalance := 0
    totalPrincipalPaid := 1 / 2
    totalInterestPaid := 0
    annualCost := 1 / 2 }

/-! ## Basic bridging lemmas -/

theorem qmin_eq (a b : ℚ) : qmin a b = min a b := by
  rw [qmin, min_def]

theorem qmax_eq (a b : ℚ) : qmax a b = max a b := by
  rw [qmax, max_def]

theorem qabs_eq (a : ℚ) : qabs a = |a| := by
  rw [qabs]
  by_cases h : a < 0
  · rw [if_pos h, abs_of_neg h]
  · rw [if_neg h, abs_of_nonneg (not_lt.mp h)]

theorem deepCopyYearly_eq (d : YearlyPaymentData) : deepCopyYearly d = d := rfl

theorem map_deepCopyYearly (l : List YearlyPaymentData) : l.map deepCopyYearly = l := by
  induction l with
  | nil => rfl
  | cons d t ih => simp [deepCopyYearly_eq, ih]

theorem deepCopyScenario_eq (s : Scenario) : deepCopyScenario s = s := by
  cases s
  simp [deepCopyScenario, map_deepCopyYearly]

theorem map_deepCopyScenario (l : List Scenario) : l.map deepCopyScenario = l := by
  induction l with
  | nil => rfl
  | cons s t ih => simp [deepCopyScenario_eq, ih]

/-! ## C4: zero-principal amortization -/

/-- C4: for `principal = 0`, any `annualRatePercent ≥ 0` and any
`termYears > 0`, `amortize` succeeds regardless of the requested rate and
returns exactly one yearly record, for year 1, with every monetary field equal
to 0, and `monthlyPayment = 0`. -/
theorem c4_zero_principal (annualRate : ℚ) (termYears : ℕ)
    (hr : 0 ≤ annualRate) (ht : 0 < termYears) :
    calculateMortgageAmortization 0 annualRate termYears = some ([zeroPrincipalRecord], 0) ∧
    zeroPrincipalRecord.year = 1 ∧
    zeroPrincipalRecord.beginningBalance = 0 ∧
    zeroPrincipalRecord.interestPaidYearly = 0 ∧
    zeroPrincipalRecord.principalPaidYearly = 0 ∧
    zeroPrincipalRecord.endingBalance = 0 ∧
    zeroPrincipalRecord.totalPrincipalPaid = 0 ∧
    zeroPrincipalRecord.totalInterestPaid = 0 ∧
    zeroPrincipalRecord.annualCost = 0 := by
  refine ⟨?_, rfl, rfl, rfl, rfl, rfl, rfl, rfl, rfl⟩
  rw [calculateMortgageAmortization, if_neg, if_pos rfl]
  push_neg
  exact ⟨le_refl 0, hr, Nat.pos_iff_ne_zero.mp ht⟩

/-- Witness for C4 at rate 5 %, term 30. -/
theorem c4_zero_principal_witness :
    (0 : ℚ) ≤ 5 ∧ 0 < 30 ∧
    calculateMortgageAmortization 0 5 30 = some ([zeroPrincipalRecord], 0) :=
  ⟨by norm_num, by norm_num, (c4_zero_principal 5 30 (by norm_num) (by norm_num)).1⟩

/-! ## C1: the per-year scenario update -/

/-- C1: characterization of `calculateYearlyScenarioUpdate`.  Active years
(record present and term covering the year) invest the gap to the year's
maximum annual cost when that maximum is positive, grow the cumulative value by
the investment rate plus the contribution, and take net worth =
down payment + cumulative principal paid + cumulative invested value.
Inactive years contribute 0, grow the cumulative value by the rate alone,
carry the cumulative principal/interest forward unchanged from the schedule's
last record, and compute net worth from the carried principal. -/
theorem c1_yearly_update (sc : Scenario) (y : ℕ) (maxAC prev init rate : ℚ) :
    (∀ d, findYear sc.yearlyData y = some d → y ≤ sc.term →
      (calculateYearlyScenarioUpdate sc y maxAC prev init rate).investmentDifference =
          (if 0 < maxAC then maxAC - d.annualCost else 0) ∧
      (calculateYearlyScenarioUpdate sc y maxAC prev init rate).cumulativeInvestmentValue =
          prev * (1 + rate) +
            (calculateYearlyScenarioUpdate sc y maxAC prev init rate).investmentDifference ∧
      (calculateYearlyScenarioUpdate sc y maxAC prev init rate).totalPrincipalPaid =
          d.totalPrincipalPaid ∧
      (calculateYearlyScenarioUpdate sc y maxAC prev init rate).totalInterestPaid =
          d.totalInterestPaid ∧
      (calculateYearlyScenarioUpdate sc y maxAC prev init rate).totalNetWorth =
          sc.downPayment + d.totalPrincipalPaid +
            (calculateYearlyScenarioUpdate sc y maxAC prev init rate).cumulativeInvestmentValue) ∧
    ((findYear sc.yearlyData y = none ∨ sc.term < y) →
      (calculateYearlyScenarioUpdate sc y maxAC prev init rate).investmentDifference = 0 ∧
      (calculateYearlyScenarioUpdate sc y maxAC prev init rate).cumulativeInvestmentValue =
          prev * (1 + rate) ∧
      (∀ dl, sc.yearlyData.getLast? = some dl →
        (calculateYearlyScenarioUpdate sc y maxAC prev init rate).totalPrincipalPaid =
            dl.totalPrincipalPaid ∧
        (calculateYearlyScenarioUpdate sc y maxAC prev init rate).totalInterestPaid =
            dl.totalInterestPaid) ∧
      (calculateYearlyScenarioUpdate sc y maxAC prev init rate).totalNetWorth =
          sc.downPayment +
            (calculateYearlyScenarioUpdate sc y maxAC prev init rate).totalPrincipalPaid +
            (calculateYearlyScenarioUpdate sc y maxAC prev init rate).cumulativeInvestmentValue) := by
  constructor
  · intro d hd hterm
    simp [calculateYearlyScenarioUpdate, hd, hterm]
  · intro h
    rcases h with h | h
    · refine ⟨?_, ?_, fun dl hdl => ?_, ?_⟩
      · simp [calculateYearlyScenarioUpdate, h, inactiveCore]
      · simp [calculateYearlyScenarioUpdate, h, inactiveCore]
      · simp [calculateYearlyScenarioUpdate, h, inactiveCore, hdl]
      · simp [calculateYearlyScenarioUpdate, h, inactiveCore]
    · have hterm : ¬ y ≤ sc.term := not_le.mpr h
      rcases hfind : findYear sc.yearlyData y with _ | d
      · refine ⟨?_, ?_, fun dl hdl => ?_, ?_⟩
        · simp [calculateYearlyScenarioUpdate, hfind, inactiveCore]
        · simp [calculateYearlyScenarioUpdate, hfind, inactiveCore]
        · simp [calculateYearlyScenarioUpdate, hfind, inactiveCore, hdl]
        · simp [calculateYearlyScenarioUpdate, hfind, inactiveCore]
      · refine ⟨?_, ?_, fun dl hdl => ?_, ?_⟩
        · simp [calculateYearlyScenarioUpdate, hfind, hterm, inactiveCore]
        · simp [calculateYearlyScenarioUpdate, hfind, hterm, inactiveCore]
        · simp [calculateYearlyScenarioUpdate, hfind, hterm, inactiveCore, hdl]
        · simp [calculateYearlyScenarioUpdate, hfind, hterm, inactiveCore]

/-- Witness for C1 at a concrete active scenario and a concrete inactive year. -/
theorem c1_yearly_update_witness :
    findYear cxScenarioA.yearlyData 1 = some zeroPrincipalRecord ∧
    (1 : ℕ) ≤ cxScenarioA.term ∧
    (calculateYearlyScenarioUpdate cxScenarioA 1 10 100 0 (7/100)).investmentDifference =
      (if (0:ℚ) < 10 then 10 - zeroPrincipalRecord.annualCost else 0) ∧
    (findYear cxScenarioA.yearlyData 2 = none ∨ cxScenarioA.term < 2) ∧
    (calculateYearlyScenarioUpdate cxScenarioA 2 10 100 0 (7/100)).investmentDifference = 0 := by
  have h1 := (c1_yearly_update cxScenarioA 1 10 100 0 (7/100)).1 zeroPrincipalRecord rfl
    (by norm_num [cxScenarioA])
  have h2 := (c1_yearly_update cxScenarioA 2 10 100 0 (7/100)).2 (Or.inr (by norm_num [cxScenarioA]))
  exact ⟨rfl, by norm_num [cxScenarioA], h1.1, Or.inr (by norm_num [cxScenarioA]), h2.1⟩

/-! ## C5: duplicate-name rejection -/

/-- C5 (amended): when the proposed name is a non-empty string — untrimmed, so
a whitespace-only proposal qualifies — and its resolved form (trimmed, or the
auto-generated default if the trimmed name is empty) collides with an existing
scenario name, `addScenario` rejects the request with the duplicate-name
validation message and leaves the registry unchanged.  (Only the *literally
empty* proposed name skips the duplicate check; see the counterexample.) -/
theorem c5_duplicate_rejected (scenarios : List Scenario) (homePrice dpv : ℚ)
    (dpt : DownPaymentType) (rate : ℚ) (term : ℕ) (nm : String)
    (hne : nm ≠ "")
    (hdup : resolveScenarioName nm scenarios.length ∈ scenarios.map (fun s => s.name)) :
    (addScenario scenarios homePrice dpv dpt rate term nm).1 = scenarios ∧
    (addScenario scenarios homePrice dpv dpt rate term nm).2 =
      some ("Scenario name \"" ++ resolveScenarioName nm scenarios.length ++
        "\" already exists. Please choose a unique name.") := by
  have hlen : (scenarios.map (fun s => s.name)).length = scenarios.length := by
    simp
  rw [addScenario, validateScenarioInputs]
  rw [hlen, if_pos ⟨hne, hdup⟩]
  exact ⟨rfl, rfl⟩

/-- The resolved name of a non-empty, already-trimmed proposal is itself. -/
theorem resolve_dup_name : resolveScenarioName "Scenario 2" 1 = "Scenario 2" := by decide

/-- The resolved name of an empty proposal over a one-entry registry is the
auto-generated "Scenario 2". -/
theorem resolve_empty_name : resolveScenarioName "" 1 = "Scenario 2" := by decide

/-- Witness for C5: a registry holding "Scenario 2", with the same name
proposed again. -/
theorem c5_duplicate_rejected_witness :
    ("Scenario 2" : String) ≠ "" ∧
    resolveScenarioName "Scenario 2" [cxScenarioDup].length ∈
      [cxScenarioDup].map (fun s => s.name) ∧
    (addScenario [cxScenarioDup] 0 0 .amount 0 1 "Scenario 2").1 = [cxScenarioDup] := by
  have hne : ("Scenario 2" : String) ≠ "" := by decide
  have hdup : resolveScenarioName "Scenario 2" [cxScenarioDup].length ∈
      [cxScenarioDup].map (fun s => s.name) := by
    rw [show [cxScenarioDup].length = 1 from rfl, resolve_dup_name]
    simp [cxScenarioDup]
  exact ⟨hne, hdup, (c5_duplicate_rejected [cxScenarioDup] 0 0 .amount 0 1 "Scenario 2"
    hne hdup).1⟩

/-- C5 counterexample: an *empty* proposed name defaults to "Scenario 2",
which collides with the existing scenario's name, yet the add succeeds and the
registry ends up with two scenarios named "Scenario 2". -/
theorem c5_counterexample :
    (addScenario [cxScenarioDup] 0 0 .amount 0 1 "").2 = none ∧
    ((addScenario [cxScenarioDup] 0 0 .amount 0 1 "").1.map (fun s => s.name)) =
      ["Scenario 2", "Scenario 2"] := by
  constructor <;>
    norm_num [addScenario, validateScenarioInputs, resolve_empty_name, getActualDownPayment,
      calculateMortgageAmortization, cxScenarioDup]

/-! ## C9 and C10: purity of the engine -/

/-- C9: the Investment Comparison Engine is deterministic and idempotent:
a second recomputation on the registry left by a first run (which the engine
does not mutate) produces identical augmented output.  In this embedding the
engine is a pure function of the scenario set and parameters, mirroring the
source, whose engine reads only its inputs and writes only to a deep copy. -/
theorem c9_engine_idempotent (scenarios : List Scenario) (initialInvestments : ℚ) :
    (scenariosWithInvestmentRun
        (scenariosWithInvestmentRun scenarios initialInvestments).1 initialInvestments).2 =
      (scenariosWithInvestmentRun scenarios initialInvestments).2 := rfl

/-- C10: the engine never mutates its input: a run leaves the registry
component untouched, and the deep copy it computes on is a faithful copy of
the input (so the input schedules gain no placeholder records and no
investment fields). -/
theorem c10_engine_input_unchanged (scenarios : List Scenario) (initialInvestments : ℚ) :
    (scenariosWithInvestmentRun scenarios initialInvestments).1 = scenarios ∧
    scenarios.map deepCopyScenario = scenarios :=
  ⟨rfl, map_deepCopyScenario scenarios⟩

/-! ## Closed-form analysis of the amortization loop -/

theorem snapThreshold_pos : (0 : ℚ) < snapThreshold := by norm_num [snapThreshold]

theorem qpow_one_le {r : ℚ} (hr : 0 ≤ r) (m : ℕ) : (1 : ℚ) ≤ (1 + r) ^ m := by
  calc (1 : ℚ) = 1 ^ m := (one_pow m).symm
  _ ≤ (1 + r) ^ m := pow_le_pow_left₀ (by norm_num) (by linarith) m

theorem qpow_sub_one_pos {r : ℚ} (hr : 0 < r) {n : ℕ} (hn : n ≠ 0) :
    (0 : ℚ) < (1 + r) ^ n - 1 := by
  have h := one_lt_pow₀ (show (1 : ℚ) < 1 + r by linarith) hn
  linarith

theorem qpow_mono {r : ℚ} (hr : 0 ≤ r) {m n : ℕ} (h : m ≤ n) :
    (1 + r) ^ m ≤ (1 + r) ^ n :=
  pow_le_pow_right₀ (by linarith) h

theorem closedBalance_zero {P r : ℚ} {n : ℕ} (hr : 0 ≤ r) (hn : n ≠ 0) :
    closedBalance P r n 0 = P := by
  rw [closedBalance]
  by_cases h : r = 0
  · rw [if_pos h, Nat.cast_zero, sub_zero]
    have hn' : ((n : ℚ)) ≠ 0 := Nat.cast_ne_zero.mpr hn
    field_simp
  · rw [if_neg h, pow_zero]
    have hr' : 0 < r := lt_of_le_of_ne hr (Ne.symm h)
    have hq : (1 + r) ^ n - 1 ≠ 0 := ne_of_gt (qpow_sub_one_pos hr' hn)
    field_simp

theorem closedBalance_self {P r : ℚ} {n : ℕ} : closedBalance P r n n = 0 := by
  rw [closedBalance]
  split <;> simp

theorem closedBalance_nonneg {P r : ℚ} {n m : ℕ} (hP : 0 < P) (hr : 0 ≤ r) (hn : n ≠ 0)
    (hm : m ≤ n) : 0 ≤ closedBalance P r n m := by
  rw [closedBalance]
  by_cases h : r = 0
  · rw [if_pos h]
    apply div_nonneg _ (Nat.cast_nonneg n)
    apply mul_nonneg hP.le
    have : (m : ℚ) ≤ (n : ℚ) := Nat.cast_le.mpr hm
    linarith
  · rw [if_neg h]
    have hr' : 0 < r := lt_of_le_of_ne hr (Ne.symm h)
    apply div_nonneg _ (qpow_sub_one_pos hr' hn).le
    apply mul_nonneg hP.le
    have := qpow_mono hr hm
    linarith

theorem closedBalance_le {P r : ℚ} {n m : ℕ} (hP : 0 < P) (hr : 0 ≤ r) (hn : n ≠ 0) :
    closedBalance P r n m ≤ P := by
  rw [closedBalance]
  by_cases h : r = 0
  · rw [if_pos h]
    have hn' : (0 : ℚ) < (n : ℚ) := by
      exact_mod_cast Nat.pos_of_ne_zero hn
    rw [div_le_iff₀ hn']
    have hm0 : (0 : ℚ) ≤ (m : ℚ) := Nat.cast_nonneg m
    nlinarith
  · rw [if_neg h]
    have hr' : 0 < r := lt_of_le_of_ne hr (Ne.symm h)
    have hq : (0 : ℚ) < (1 + r) ^ n - 1 := qpow_sub_one_pos hr' hn
    rw [div_le_iff₀ hq]
    have h1 : (1 : ℚ) ≤ (1 + r) ^ m := qpow_one_le hr m
    nlinarith

theorem closedBalance_step {P r : ℚ} {n : ℕ} (hr : 0 ≤ r) (hn : n ≠ 0) (m : ℕ) :
    closedBalance P r n (m + 1) =
      closedBalance P r n m * (1 + r) - annuityPayment P r n := by
  rw [closedBalance, closedBalance, annuityPayment]
  by_cases h : r = 0
  · rw [if_pos h, if_pos h, if_pos h, h]
    have hn' : ((n : ℚ)) ≠ 0 := Nat.cast_ne_zero.mpr hn
    push_cast
    field_simp
    ring
  · rw [if_neg h, if_neg h, if_neg h]
    have hr' : 0 < r := lt_of_le_of_ne hr (Ne.symm h)
    have hq : (1 + r) ^ n - 1 ≠ 0 := ne_of_gt (qpow_sub_one_pos hr' hn)
    field_simp
    ring

theorem annuityPayment_ge {P r : ℚ} {n : ℕ} (hP : 0 < P) (hr : 0 ≤ r) (hn : n ≠ 0) :
    P * r ≤ annuityPayment P r n := by
  rw [annuityPayment]
  by_cases h : r = 0
  · rw [if_pos h, h, mul_zero]
    have hn' : (0 : ℚ) < (n : ℚ) := by exact_mod_cast Nat.pos_of_ne_zero hn
    positivity
  · rw [if_neg h]
    have hr' : 0 < r := lt_of_le_of_ne hr (Ne.symm h)
    have hq : (0 : ℚ) < (1 + r) ^ n - 1 := qpow_sub_one_pos hr' hn
    rw [le_div_iff₀ hq]
    have h1 : (1 : ℚ) ≤ (1 + r) ^ n := qpow_one_le hr n
    nlinarith

theorem closedBalance_succ_le {P r : ℚ} {n : ℕ} (hP : 0 < P) (hr : 0 ≤ r) (hn : n ≠ 0)
    (m : ℕ) : closedBalance P r n (m + 1) ≤ closedBalance P r n m := by
  rw [closedBalance_step hr hn]
  have h1 : closedBalance P r n m ≤ P := closedBalance_le hP hr hn
  have h2 : P * r ≤ annuityPayment P r n := annuityPayment_ge hP hr hn
  have h3 : closedBalance P r n m * r ≤ P * r :=
    mul_le_mul_of_nonneg_right h1 hr
  nlinarith

theorem qmin_of_ge {a b : ℚ} (h : b ≤ a) : qmin a b = b := by
  rw [qmin]
  split
  · exact le_antisymm (by assumption) h
  · rfl

theorem monthBody_at_closed {P r : ℚ} {n m : ℕ} (hP : 0 < P) (hr : 0 ≤ r) (hn : n ≠ 0)
    (hm : m < n) :
    monthBody r (annuityPayment P r n) (closedBalance P r n m) =
      (closedBalance P r n m * r,
        closedBalance P r n m - closedBalance P r n (m + 1)) := by
  have hstep := closedBalance_step (P := P) hr hn m
  have hnext : 0 ≤ closedBalance P r n (m + 1) := closedBalance_nonneg hP hr hn hm
  rw [monthBody]
  by_cases h : r = 0
  · subst h
    have hM : annuityPayment P 0 n ≤ closedBalance P 0 n m := by
      rw [annuityPayment, closedBalance, if_pos rfl, if_pos rfl]
      have hn' : (0 : ℚ) < (n : ℚ) := by exact_mod_cast Nat.pos_of_ne_zero hn
      rw [div_le_div_iff₀ hn' hn']
      have h1 : (m : ℚ) + 1 ≤ (n : ℚ) := by exact_mod_cast Nat.succ_le_of_lt hm
      nlinarith [mul_nonneg (mul_pos hP hn').le (show (0:ℚ) ≤ (n : ℚ) - (m : ℚ) - 1 by linarith)]
    norm_num at hstep
    norm_num
    rw [qmin_of_ge hM, if_neg (not_lt.mpr hM), Prod.mk.injEq]
    exact ⟨by ring, by linarith⟩
  · simp only [if_neg h]
    have hclamp : ¬ closedBalance P r n m <
        annuityPayment P r n - closedBalance P r n m * r := by
      push_neg
      nlinarith [hstep, hnext]
    rw [if_neg hclamp, Prod.mk.injEq]
    exact ⟨rfl, by rw [hstep]; ring⟩

theorem monthsLoop_stuck {r M : ℚ} {n : ℕ} {b : ℚ} (hb : b ≤ snapThreshold) :
    ∀ (k cm : ℕ) (iY pY : ℚ), monthsLoop r M n k cm (b, iY, pY) = (b, iY, pY) := by
  intro k cm iY pY
  cases k with
  | zero => rfl
  | succ k =>
    rw [monthsLoop, if_pos (Or.inr hb)]

/-- Master specification of the inner month loop: starting on the exact
trajectory with `m` months already processed, the loop either stays on the
exact closed-form trajectory (paying exactly the balance difference) or stops
at or below the snap threshold, having paid the balance difference up to a
snapped residual of less than the threshold. -/
theorem monthsLoop_spec {P r : ℚ} {n : ℕ} (hP : 0 < P) (hr : 0 ≤ r) (hn : n ≠ 0) :
    ∀ (k m : ℕ) (iY pY : ℚ) (out : ℚ × ℚ × ℚ), m ≤ n →
      out = monthsLoop r (annuityPayment P r n) n k (m + 1)
        (closedBalance P r n m, iY, pY) →
      (out.1 ≤ closedBalance P r n m ∧ 0 ≤ out.1) ∧
      ((out.1 = closedBalance P r n (min (m + k) n) ∧
          out.2.2 = pY + (closedBalance P r n m - out.1)) ∨
        (out.1 ≤ snapThreshold ∧
          pY + (closedBalance P r n m - out.1) - snapThreshold < out.2.2 ∧
          out.2.2 ≤ pY + (closedBalance P r n m - out.1))) := by
  intro k
  induction k with
  | zero =>
    intro m iY pY out hm hout
    simp only [monthsLoop] at hout
    subst hout
    refine ⟨⟨le_refl _, closedBalance_nonneg hP hr hn hm⟩, Or.inl ⟨?_, by ring⟩⟩
    rw [Nat.add_zero, min_eq_left hm]
  | succ k ih =>
    intro m iY pY out hm hout
    by_cases hcm : n < m + 1
    · have hmn : m = n := le_antisymm hm (Nat.lt_succ_iff.mp hcm)
      rw [monthsLoop, if_pos (Or.inl hcm)] at hout
      subst hout
      refine ⟨⟨le_refl _, closedBalance_nonneg hP hr hn hm⟩, Or.inl ⟨?_, by ring⟩⟩
      subst hmn
      rw [min_eq_right (Nat.le_add_right m (k + 1))]
    · by_cases hbc : closedBalance P r n m ≤ snapThreshold
      · rw [monthsLoop, if_pos (Or.inr hbc)] at hout
        subst hout
        refine ⟨⟨le_refl _, closedBalance_nonneg hP hr hn hm⟩, Or.inr ⟨hbc, ?_, ?_⟩⟩
        · have := snapThreshold_pos
          simp only
          linarith
        · simp only
          linarith
      · have hm' : m < n := Nat.lt_of_succ_le (not_lt.mp hcm)
        rw [monthsLoop, if_neg (by push_neg; exact ⟨not_lt.mp hcm, not_le.mp hbc⟩)] at hout
        rw [monthBody_at_closed hP hr hn hm'] at hout
        simp only at hout
        have hb1 : closedBalance P r n m -
            (closedBalance P r n m - closedBalance P r n (m + 1)) =
            closedBalance P r n (m + 1) := by ring
        rw [hb1] at hout
        have hnext_nonneg : 0 ≤ closedBalance P r n (m + 1) :=
          closedBalance_nonneg hP hr hn hm'
        have hsucc_le : closedBalance P r n (m + 1) ≤ closedBalance P r n m :=
          closedBalance_succ_le hP hr hn m
        by_cases hsnap : closedBalance P r n (m + 1) < snapThreshold
        · rw [if_pos hsnap] at hout
          rw [monthsLoop_stuck snapThreshold_pos.le] at hout
          subst hout
          refine ⟨⟨by simp only; linarith, le_refl 0⟩, Or.inr ⟨snapThreshold_pos.le, ?_, ?_⟩⟩
          · simp only
            linarith
          · simp only
            linarith
        · rw [if_neg hsnap] at hout
          have hrec := ih (m + 1) (iY + closedBalance P r n m * r)
            (pY + (closedBalance P r n m - closedBalance P r n (m + 1))) out
            (Nat.succ_le_of_lt hm') hout
          have hmin : min (m + 1 + k) n = min (m + (k + 1)) n := by
            congr 1
            omega
          rcases hrec with ⟨⟨hle, hpos⟩, hcases⟩
          refine ⟨⟨by linarith, hpos⟩, ?_⟩
          rcases hcases with ⟨h1, h2⟩ | ⟨h1, h2, h3⟩
          · exact Or.inl ⟨by rw [← hmin]; exact h1, by linarith⟩
          · exact Or.inr ⟨h1, by linarith, by linarith⟩

theorem yearsLoop_succ (r M : ℚ) (n k year : ℕ) (b tpp tip : ℚ) :
    yearsLoop r M n (k + 1) year b tpp tip =
      (let s := monthsLoop r M n 12 ((year - 1) * 12 + 1) (b, 0, 0)
       let rec0 : YearlyPaymentData :=
         { year := year
           beginningBalance := b
           interestPaidYearly := s.2.1
           principalPaidYearly := s.2.2
           endingBalance := s.1
           totalPrincipalPaid := tpp + s.2.2
           totalInterestPaid := tip + s.2.1
           annualCost := s.2.2 + s.2.1 }
       if s.1 ≤ 0 then [rec0]
       else rec0 :: yearsLoop r M n k (year + 1) s.1 (tpp + s.2.2) (tip + s.2.1)) := rfl

theorem chained_cons_all_le {a : YearlyPaymentData} {t : List YearlyPaymentData}
    (hch : chainedRecords (a :: t))
    (hall : ∀ d ∈ a :: t, d.endingBalance ≤ d.beginningBalance) :
    ∀ x ∈ t, x.endingBalance ≤ a.endingBalance := by
  induction t generalizing a with
  | nil => intro x hx; cases hx
  | cons bb t ih =>
    intro x hx
    rcases hch with ⟨hbb, hch'⟩
    rcases List.mem_cons.mp hx with hx | hx
    · subst hx
      calc x.endingBalance ≤ x.beginningBalance := hall x (by simp)
      _ = a.endingBalance := hbb
    · have hx' := ih hch' (fun d hd => hall d (by simp at hd ⊢; tauto)) x hx
      calc x.endingBalance ≤ bb.endingBalance := hx'
      _ ≤ bb.beginningBalance := hall bb (by simp)
      _ = a.endingBalance := hbb

theorem chained_pairwise {L : List YearlyPaymentData}
    (hch : chainedRecords L)
    (hall : ∀ d ∈ L, d.endingBalance ≤ d.beginningBalance) :
    List.Pairwise (fun a b => b.endingBalance ≤ a.endingBalance) L := by
  induction L with
  | nil => exact List.Pairwise.nil
  | cons a t ih =>
    constructor
    · exact chained_cons_all_le hch hall
    · apply ih
      · cases t with
        | nil => trivial
        | cons bb t' => exact hch.2
      · intro d hd
        exact hall d (by simp [hd])

/-- Invariant carried across years of the outer loop: either the balance is on
the exact closed-form trajectory and every cent is accounted for, or the run is
stuck at or below the snap threshold with at most one snapped residual lost. -/
theorem yearsLoop_spec {P r : ℚ} {T : ℕ} (hP : 0 < P) (hr : 0 ≤ r) (hT : T ≠ 0) :
    ∀ (k j : ℕ) (b tpp tip : ℚ) (L : List YearlyPaymentData),
      j + k = T → k ≠ 0 →
      ((b = closedBalance P r (T * 12) (j * 12) ∧ tpp + b = P) ∨
        (0 ≤ b ∧ b ≤ snapThreshold ∧ P - snapThreshold < tpp + b ∧ tpp + b ≤ P)) →
      L = yearsLoop r (annuityPayment P r (T * 12)) (T * 12) k (j + 1) b tpp tip →
      (∃ hd tl, L = hd :: tl ∧ hd.beginningBalance = b) ∧
      chainedRecords L ∧
      (∀ d ∈ L, d.endingBalance ≤ d.beginningBalance ∧ 0 ≤ d.endingBalance ∧
        d.endingBalance ≤ b) ∧
      L.map (fun d => d.year) = List.range' (j + 1) L.length ∧
      j + L.length ≤ T ∧
      (∃ lr, L.getLast? = some lr ∧ lr.endingBalance ≤ snapThreshold ∧
        P - snapThreshold < lr.totalPrincipalPaid + lr.endingBalance ∧
        lr.totalPrincipalPaid + lr.endingBalance ≤ P ∧
        lr.totalPrincipalPaid = tpp + (L.map (fun d => d.principalPaidYearly)).sum) := by
  have hn : T * 12 ≠ 0 := by omega
  intro k
  induction k with
  | zero =>
    intro j b tpp tip L hjk hk
    exact absurd rfl hk
  | succ k ih =>
    intro j b tpp tip L hjk hk hinv hL
    subst hL
    have hidx : (j + 1 - 1) * 12 + 1 = j * 12 + 1 := by omega
    rw [yearsLoop_succ, hidx]
    rcases hsrun : monthsLoop r (annuityPayment P r (T * 12)) (T * 12) 12 (j * 12 + 1)
      (b, 0, 0) with ⟨b2, iY2, pY2⟩
    -- facts about the month run
    have hmonth : (b2 ≤ b ∧ 0 ≤ b2) ∧
        (pY2 = b - b2 ∨
          (b2 ≤ snapThreshold ∧ b - b2 - snapThreshold < pY2 ∧ pY2 ≤ b - b2)) ∧
        (b2 ≤ 0 ∨ k = 0 →
          b2 ≤ snapThreshold ∧ P - snapThreshold < (tpp + pY2) + b2 ∧ (tpp + pY2) + b2 ≤ P) ∧
        ((b2 = closedBalance P r (T * 12) ((j + 1) * 12) ∧ (tpp + pY2) + b2 = P) ∨
          (0 ≤ b2 ∧ b2 ≤ snapThreshold ∧
            P - snapThreshold < (tpp + pY2) + b2 ∧ (tpp + pY2) + b2 ≤ P)) := by
      rcases hinv with ⟨hb, htppb⟩ | ⟨hb0, hbc, hlo, hhi⟩
      · subst hb
        have hmle : j * 12 ≤ T * 12 := by omega
        have hspec := monthsLoop_spec hP hr hn 12 (j * 12) 0 0 (b2, iY2, pY2) hmle
          (by rw [← hsrun])
        simp only at hspec
        have hmin12 : min (j * 12 + 12) (T * 12) = (j + 1) * 12 := by
          rw [min_eq_left (by omega : j * 12 + 12 ≤ T * 12)]
          omega
        rw [hmin12] at hspec
        rcases hspec with ⟨⟨hle, hpos⟩, hcase⟩
        have hFn : 0 ≤ closedBalance P r (T * 12) ((j + 1) * 12) :=
          closedBalance_nonneg hP hr hn (by omega)
        have hclose : closedBalance P r (T * 12) (T * 12) = 0 := closedBalance_self
        rcases hcase with ⟨h1, h2⟩ | ⟨h1, h2, h3⟩
        · refine ⟨⟨hle, hpos⟩, Or.inl (by linarith), ?_, Or.inl ⟨h1, by linarith⟩⟩
          intro hstop
          have hb2c : b2 ≤ snapThreshold := by
            rcases hstop with hstop | hstop
            · linarith [snapThreshold_pos]
            · subst hstop
              have hjT : j + 1 = T := by omega
              rw [h1, hjT, hclose]
              exact snapThreshold_pos.le
          exact ⟨hb2c, by linarith [snapThreshold_pos], by linarith⟩
        · refine ⟨⟨hle, hpos⟩, Or.inr ⟨h1, by linarith, by linarith⟩, ?_,
            Or.inr ⟨hpos, h1, by linarith, by linarith⟩⟩
          intro _
          exact ⟨h1, by linarith, by linarith⟩
      · have hstuck := monthsLoop_stuck (r := r) (M := annuityPayment P r (T * 12))
          (n := T * 12) hbc 12 (j * 12 + 1) (0 : ℚ) (0 : ℚ)
        rw [hsrun] at hstuck
        rcases Prod.mk.injEq .. ▸ hstuck with ⟨hb2, hrest⟩
        rcases Prod.mk.injEq .. ▸ hrest with ⟨hiY2, hpY2⟩
        subst hb2
        subst hpY2
        refine ⟨⟨le_refl _, hb0⟩, Or.inl (by ring), ?_, Or.inr ⟨hb0, hbc, by linarith, by linarith⟩⟩
        intro _
        exact ⟨hbc, by linarith, by linarith⟩
    rcases hmonth with ⟨⟨hb2le, hb2pos⟩, hpay, hstopfacts, hinv'⟩
    by_cases hb2 : b2 ≤ 0
    · -- the year loop breaks: single record
      rw [if_pos hb2]
      have hwin := hstopfacts (Or.inl hb2)
      refine ⟨⟨_, [], rfl, rfl⟩, trivial, ?_, ?_, by simp only [List.length_singleton]; omega, ?_⟩
      · intro d hd
        rcases List.mem_singleton.mp hd with rfl
        exact ⟨hb2le, hb2pos, hb2le⟩
      · simp [List.range'_one]
      · refine ⟨_, rfl, ?_, ?_, ?_, ?_⟩
        · exact hwin.1
        · simpa using hwin.2.1
        · simpa using hwin.2.2
        · simp
    · rw [if_neg hb2]
      rcases Nat.eq_zero_or_pos k with hk0 | hk0
      · -- last scheduled year
        subst hk0
        rw [yearsLoop]
        have hwin := hstopfacts (Or.inr rfl)
        refine ⟨⟨_, [], rfl, rfl⟩, trivial, ?_, ?_, by simp only [List.length_singleton]; omega, ?_⟩
        · intro d hd
          rcases List.mem_singleton.mp hd with rfl
          exact ⟨hb2le, hb2pos, hb2le⟩
        · simp [List.range'_one]
        · refine ⟨_, rfl, ?_, ?_, ?_, ?_⟩
          · exact hwin.1
          · simpa using hwin.2.1
          · simpa using hwin.2.2
          · simp
      · -- recurse into the remaining years
        have hrest := ih (j + 1) b2 (tpp + pY2) (tip + iY2)
          (yearsLoop r (annuityPayment P r (T * 12)) (T * 12) k (j + 1 + 1) b2
            (tpp + pY2) (tip + iY2))
          (by omega) (by omega) hinv' rfl
        rcases hrest with ⟨⟨hd', tl', hcons', hhd'⟩, hch', hall', hyears', hlen', lr, hlast',
          hlr1, hlr2, hlr3, hlr4⟩
        refine ⟨⟨_, _, rfl, rfl⟩, ?_, ?_, ?_, ?_, ?_⟩
        · -- chained
          rw [hcons']
          exact ⟨by rw [hhd'], by rw [← hcons']; exact hch'⟩
        · intro d hd
          rcases List.mem_cons.mp hd with rfl | hd
          · exact ⟨hb2le, hb2pos, hb2le⟩
          · rcases hall' d hd with ⟨h1, h2, h3⟩
            exact ⟨h1, h2, le_trans h3 hb2le⟩
        · simp only [List.map_cons, List.length_cons, hyears', List.range'_succ]
        · have := hlen'
          simp only [List.length_cons]
          omega
        · refine ⟨lr, ?_, hlr1, hlr2, hlr3, ?_⟩
          · rw [hcons', List.getLast?_cons_cons, ← hcons']
            exact hlast'
          · rw [hlr4]
            simp only [List.map_cons, List.sum_cons]
            ring

theorem mem_of_getLast?_eq {α : Type} {l : List α} {a : α} (h : l.getLast? = some a) :
    a ∈ l := by
  rcases List.mem_getLast?_eq_getLast (Option.mem_def.mpr h) with ⟨hne, heq⟩
  rw [heq]
  exact List.getLast_mem hne

/-- `calculateMortgageAmortization` on a positive principal is the year loop
driven by the annuity payment. -/
theorem calculateMortgageAmortization_eq {P a : ℚ} {T : ℕ} (hP : 0 < P) (ha : 0 ≤ a)
    (hT : T ≠ 0) :
    calculateMortgageAmortization P a T =
      some (yearsLoop (a / 12 / 100) (annuityPayment P (a / 12 / 100) (T * 12)) (T * 12)
        T 1 P 0 0, annuityPayment P (a / 12 / 100) (T * 12)) := by
  rw [calculateMortgageAmortization,
    if_neg (by push_neg; exact ⟨not_lt.mp (by linarith), ha, hT⟩),
    if_neg (ne_of_gt hP)]
  rfl

/-- C2 (amended): for every `principal > 0`, `rate ≥ 0`, `term > 0` the
amortization succeeds, the sum of the yearly principal payments is within
`1e-2` of the principal, and the final ending balance is at most the snap
threshold `0.005` (not always exactly 0: see the counterexample). -/
theorem c2_principal_conservation (P a : ℚ) (T : ℕ) (hP : 0 < P) (ha : 0 ≤ a)
    (hT : 0 < T) :
    ∃ L M, calculateMortgageAmortization P a T = some (L, M) ∧ L ≠ [] ∧
      |(L.map (fun d => d.principalPaidYearly)).sum - P| ≤ 1 / 100 ∧
      ∃ lr, L.getLast? = some lr ∧ lr.endingBalance ≤ snapThreshold := by
  have hr : 0 ≤ a / 12 / 100 := by positivity
  have hT0 : T ≠ 0 := hT.ne'
  have hinv : P = closedBalance P (a / 12 / 100) (T * 12) (0 * 12) ∧ (0 : ℚ) + P = P := by
    constructor
    · rw [show (0 : ℕ) * 12 = 0 from rfl,
        closedBalance_zero hr (by omega : T * 12 ≠ 0)]
    · ring
  have hspec := yearsLoop_spec hP hr hT0 T 0 P 0 0
    (yearsLoop (a / 12 / 100) (annuityPayment P (a / 12 / 100) (T * 12)) (T * 12) T
      (0 + 1) P 0 0) (by omega) hT0 (Or.inl hinv) rfl
  rcases hspec with ⟨⟨hd, tl, hcons, _⟩, _, hall, _, _, lr, hlast, hlr1, hlr2, hlr3, hlr4⟩
  refine ⟨_, _, calculateMortgageAmortization_eq hP ha hT0, ?_, ?_, lr, ?_, hlr1⟩
  · rw [show (0 : ℕ) + 1 = 1 from rfl] at hcons
    rw [hcons]
    exact List.cons_ne_nil hd tl
  · have hmem := mem_of_getLast?_eq hlast
    rcases hall lr hmem with ⟨_, hebpos, _⟩
    have hc : snapThreshold = 1 / 200 := rfl
    have hsum : (List.map (fun d => d.principalPaidYearly)
        (yearsLoop (a / 12 / 100) (annuityPayment P (a / 12 / 100) (T * 12)) (T * 12) T
          (0 + 1) P 0 0)).sum = lr.totalPrincipalPaid := by
      rw [hlr4]; ring
    rw [show (0 : ℕ) + 1 = 1 from rfl] at hsum
    rw [hsum]
    rw [abs_le]
    constructor <;> linarith
  · rw [show (0 : ℕ) + 1 = 1 from rfl] at hlast
    exact hlast

/-- Witness for C2 at principal 100000, rate 4.19 %, term 30. -/
theorem c2_principal_conservation_witness :
    (0 : ℚ) < 100000 ∧ (0 : ℚ) ≤ 419 / 100 ∧ 0 < 30 ∧
    ∃ L M, calculateMortgageAmortization 100000 (419 / 100) 30 = some (L, M) ∧ L ≠ [] ∧
      |(L.map (fun d => d.principalPaidYearly)).sum - 100000| ≤ 1 / 100 ∧
      ∃ lr, L.getLast? = some lr ∧ lr.endingBalance ≤ snapThreshold :=
  ⟨by norm_num, by norm_num, by norm_num,
    c2_principal_conservation 100000 (419 / 100) 30 (by norm_num) (by norm_num) (by norm_num)⟩

/-- C2 counterexample: for principal `1/250` (0.004, below the snap threshold),
rate 0, term 1, the computed monthly payment `1/3000` is finite and the run
succeeds, but the last (only) record's ending balance is `1/250`, not exactly
0 — the loop never pays anything because the balance starts at or below the
`0.005` break threshold. -/
theorem c2_counterexample :
    calculateMortgageAmortization (1 / 250) 0 1 = some ([cxTinyRecord1], 1 / 3000) ∧
    cxTinyRecord1.endingBalance ≠ 0 := by
  constructor
  · norm_num [calculateMortgageAmortization, yearsLoop, monthsLoop, snapThreshold,
      cxTinyRecord1]
  · norm_num [cxTinyRecord1]

/-- C6 (amended): every successful amortization with positive principal yields
a schedule in which each year's beginning balance is the previous year's ending
balance, ending balances are monotonically non-increasing, and the last record
has year index at most the term and ending balance at most the snap threshold
`0.005` (not always exactly 0: see the counterexample). -/
theorem c6_schedule_invariants (P a : ℚ) (T : ℕ) (L : List YearlyPaymentData) (M : ℚ)
    (hP : 0 < P) (hsome : calculateMortgageAmortization P a T = some (L, M)) :
    chainedRecords L ∧
    List.Pairwise (fun d e => e.endingBalance ≤ d.endingBalance) L ∧
    (∀ d ∈ L, d.endingBalance ≤ d.beginningBalance) ∧
    ∃ lr, L.getLast? = some lr ∧ lr.year ≤ T ∧ lr.endingBalance ≤ snapThreshold := by
  have hguard : ¬(P < 0 ∨ a < 0 ∨ T = 0) := by
    intro h
    rw [calculateMortgageAmortization, if_pos h] at hsome
    exact Option.noConfusion hsome
  push_neg at hguard
  rcases hguard with ⟨_, ha, hT0⟩
  have hr : 0 ≤ a / 12 / 100 := by positivity
  rw [calculateMortgageAmortization_eq hP ha hT0] at hsome
  have hpair := Option.some.inj hsome
  have hL : L = yearsLoop (a / 12 / 100) (annuityPayment P (a / 12 / 100) (T * 12))
      (T * 12) T 1 P 0 0 := congrArg Prod.fst hpair.symm
  have hinv : P = closedBalance P (a / 12 / 100) (T * 12) (0 * 12) ∧ (0 : ℚ) + P = P := by
    constructor
    · rw [show (0 : ℕ) * 12 = 0 from rfl,
        closedBalance_zero hr (by omega : T * 12 ≠ 0)]
    · ring
  have hspec := yearsLoop_spec hP hr hT0 T 0 P 0 0 L (by omega) hT0 (Or.inl hinv)
    (by rw [hL])
  rcases hspec with ⟨_, hchain, hall, hyears, hlen, lr, hlast, hlr1, _, _, _⟩
  refine ⟨hchain, chained_pairwise hchain (fun d hd => (hall d hd).1), ?_, lr, hlast, ?_, hlr1⟩
  · intro d hd
    exact (hall d hd).1
  · have hmem := mem_of_getLast?_eq hlast
    have hymem : lr.year ∈ L.map (fun d => d.year) := List.mem_map_of_mem _ hmem
    rw [hyears] at hymem
    rcases List.mem_range'.mp hymem with ⟨i, hi, hyi⟩
    omega

/-- Witness for C6 on the one-year zero-rate loan with principal `1/2`. -/
theorem c6_schedule_invariants_witness :
    calculateMortgageAmortization (1 / 2) 0 1 = some ([cxHalfRecord], 1 / 24) ∧
    chainedRecords [cxHalfRecord] ∧
    ∃ lr, [cxHalfRecord].getLast? = some lr ∧ lr.year ≤ 1 ∧
      lr.endingBalance ≤ snapThreshold := by
  have hsome : calculateMortgageAmortization (1 / 2) 0 1 = some ([cxHalfRecord], 1 / 24) := by
    norm_num [calculateMortgageAmortization, yearsLoop, monthsLoop, monthBody, qmin,
      snapThreshold, cxHalfRecord]
  have h := c6_schedule_invariants (1 / 2) 0 1 [cxHalfRecord] (1 / 24) (by norm_num) hsome
  exact ⟨hsome, h.1, h.2.2.2⟩

/-- C6 counterexample: for principal `1/200` (exactly the snap threshold),
rate 0, term 1, amortization succeeds but the schedule's last ending balance
is `1/200`, which never reaches exactly 0. -/
theorem c6_counterexample :
    calculateMortgageAmortization (1 / 200) 0 1 = some ([cxTinyRecord2], 1 / 2400) ∧
    cxTinyRecord2.endingBalance ≠ 0 := by
  constructor
  · norm_num [calculateMortgageAmortization, yearsLoop, monthsLoop, snapThreshold,
      cxTinyRecord2]
  · norm_num [cxTinyRecord2]

/-! ## C8: zero interest rate -/

theorem monthBody_zero_rate (M b : ℚ) : (monthBody 0 M b).1 = 0 := by
  rw [monthBody]
  norm_num
  split <;> rfl

theorem monthsLoop_zero_rate_interest (M : ℚ) (n : ℕ) :
    ∀ (k cm : ℕ) (b iY pY : ℚ), (monthsLoop 0 M n k cm (b, iY, pY)).2.1 = iY := by
  intro k
  induction k with
  | zero => intro cm b iY pY; rfl
  | succ k ih =>
    intro cm b iY pY
    rw [monthsLoop]
    split
    · rfl
    · rw [ih, monthBody_zero_rate, add_zero]

theorem yearsLoop_zero_rate_interest (M : ℚ) (n : ℕ) :
    ∀ (k year : ℕ) (b tpp tip : ℚ), ∀ d ∈ yearsLoop 0 M n k year b tpp tip,
      d.interestPaidYearly = 0 := by
  intro k
  induction k with
  | zero =>
    intro year b tpp tip d hd
    exact absurd hd (List.not_mem_nil d)
  | succ k ih =>
    intro year b tpp tip d hd
    rw [yearsLoop_succ] at hd
    simp only at hd
    by_cases hb2 : (monthsLoop 0 M n 12 ((year - 1) * 12 + 1) (b, 0, 0)).1 ≤ 0
    · rw [if_pos hb2] at hd
      rcases List.mem_singleton.mp hd with rfl
      exact monthsLoop_zero_rate_interest M n 12 _ b 0 0
    · rw [if_neg hb2] at hd
      rcases List.mem_cons.mp hd with rfl | hd
      · exact monthsLoop_zero_rate_interest M n 12 _ b 0 0
      · exact ih _ _ _ _ d hd

/-- C8: with a zero interest rate the monthly payment is
`principal / (termYears * 12)` and every year's interest is 0; in particular
for principal 120000 and term 10 the payment is 1000 and each of the 10 years
repays exactly 12000 of principal with zero interest. -/
theorem c8_zero_rate :
    (∀ (P : ℚ) (T : ℕ), 0 < P → 0 < T →
      ∃ L M, calculateMortgageAmortization P 0 T = some (L, M) ∧
        M = P / (12 * T) ∧ ∀ d ∈ L, d.interestPaidYearly = 0) ∧
    (calculateMortgageAmortization 120000 0 10).isSome = true ∧
    (∀ L M, calculateMortgageAmortization 120000 0 10 = some (L, M) →
      M = 1000 ∧ L.length = 10 ∧
      ∀ d ∈ L, d.principalPaidYearly = 12000 ∧ d.interestPaidYearly = 0) := by
  have hconc : (calculateMortgageAmortization 120000 0 10).map
      (fun p => (p.2, p.1.map (fun d => (d.principalPaidYearly, d.interestPaidYearly)))) =
      some (1000, List.replicate 10 ((12000 : ℚ), (0 : ℚ))) := by
    norm_num [calculateMortgageAmortization, yearsLoop, monthsLoop, monthBody, qmin,
      snapThreshold, List.replicate]
  refine ⟨?_, ?_, ?_⟩
  · intro P T hP hT
    have hr0 : (0 : ℚ) / 12 / 100 = 0 := by norm_num
    have heq := calculateMortgageAmortization_eq (a := 0) hP (le_refl 0) hT.ne'
    rw [hr0] at heq
    refine ⟨_, _, heq, ?_, ?_⟩
    · rw [annuityPayment, if_pos rfl]
      push_cast
      rw [mul_comm]
    · exact yearsLoop_zero_rate_interest _ _ T 1 P 0 0
  · rcases hcal : calculateMortgageAmortization 120000 0 10 with _ | p
    · rw [hcal] at hconc
      exact Option.noConfusion hconc
    · rfl
  · intro L M hcal
    rw [hcal] at hconc
    have hpair := Option.some.inj hconc
    have hM : M = 1000 := congrArg Prod.fst hpair
    have hmap : L.map (fun d => (d.principalPaidYearly, d.interestPaidYearly)) =
        List.replicate 10 ((12000 : ℚ), (0 : ℚ)) := congrArg Prod.snd hpair
    refine ⟨hM, ?_, ?_⟩
    · have := congrArg List.length hmap
      simpa using this
    · intro d hd
      have hmem : (d.principalPaidYearly, d.interestPaidYearly) ∈
          List.replicate 10 ((12000 : ℚ), (0 : ℚ)) := by
        rw [← hmap]
        exact List.mem_map_of_mem _ hd
      have := List.eq_of_mem_replicate hmem
      exact ⟨congrArg Prod.fst this, congrArg Prod.snd this⟩

/-- Witness for C8's general clause at principal 7, term 2. -/
theorem c8_zero_rate_witness :
    (0 : ℚ) < 7 ∧ 0 < 2 ∧
    ∃ L M, calculateMortgageAmortization 7 0 2 = some (L, M) ∧ M = 7 / (12 * 2) ∧
      ∀ d ∈ L, d.interestPaidYearly = 0 := by
  exact ⟨by norm_num, by norm_num, c8_zero_rate.1 7 2 (by norm_num) (by norm_num)⟩

/-! ## Engine: record-lookup lemmas -/

theorem findYear_cons (d : YearlyPaymentData) (t : List YearlyPaymentData) (y : ℕ) :
    findYear (d :: t) y = if d.year = y then some d else findYear t y := by
  by_cases h : d.year = y <;> simp [findYear, List.find?_cons, h]

theorem updateFirstYear_cons (d : YearlyPaymentData) (t : List YearlyPaymentData) (y : ℕ)
    (f : YearlyPaymentData → YearlyPaymentData) :
    updateFirstYear (d :: t) y f =
      if d.year = y then f d :: t else d :: updateFirstYear t y f := by
  by_cases h : d.year = y <;> simp [updateFirstYear, h]

theorem findYear_append_ne {l : List YearlyPaymentData} {d : YearlyPaymentData} {y : ℕ}
    (hd : d.year ≠ y) : findYear (l ++ [d]) y = findYear l y := by
  rw [findYear, findYear, List.find?_append]
  have h1 : List.find? (fun e => e.year == y) [d] = none := by
    simp [List.find?_cons, hd]
  rw [h1, Option.or_none]

theorem findYear_append_self {l : List YearlyPaymentData} {d : YearlyPaymentData} {y : ℕ}
    (hl : findYear l y = none) (hd : d.year = y) : findYear (l ++ [d]) y = some d := by
  rw [findYear, List.find?_append]
  rw [findYear] at hl
  rw [hl]
  simp [List.find?_cons, hd]

theorem updateFirstYear_findYear_ne {y y' : ℕ} {f : YearlyPaymentData → YearlyPaymentData}
    (hf : ∀ e, (f e).year = e.year) (hne : y' ≠ y) :
    ∀ l : List YearlyPaymentData,
      findYear (updateFirstYear l y f) y' = findYear l y' := by
  intro l
  induction l with
  | nil => rfl
  | cons d t ih =>
    rw [updateFirstYear_cons]
    by_cases hdy : d.year = y
    · have h2 : ¬ d.year = y' := by
        rw [hdy]
        exact Ne.symm hne
      rw [if_pos hdy, findYear_cons, findYear_cons, hf d, if_neg h2, if_neg h2]
    · rw [if_neg hdy, findYear_cons, findYear_cons, ih]

theorem updateFirstYear_findYear_eq {y : ℕ} {f : YearlyPaymentData → YearlyPaymentData}
    (hf : ∀ e, (f e).year = e.year) :
    ∀ {l : List YearlyPaymentData} {d : YearlyPaymentData},
      findYear l y = some d → findYear (updateFirstYear l y f) y = some (f d) := by
  intro l
  induction l with
  | nil =>
    intro d h
    exact Option.noConfusion h
  | cons e t ih =>
    intro d h
    rw [findYear_cons] at h
    rw [updateFirstYear_cons]
    by_cases hey : e.year = y
    · rw [if_pos hey] at h
      rcases Option.some.inj h with rfl
      rw [if_pos hey, findYear_cons, hf e, if_pos hey]
    · rw [if_neg hey] at h
      rw [if_neg hey, findYear_cons, if_neg hey]
      exact ih h

theorem ensure_preserves_fields (s : Scenario) (y : ℕ) (u : ScenarioYearUpdate) :
    ((ensureYearlyDataExists s y u).1).name = s.name ∧
    ((ensureYearlyDataExists s y u).1).term = s.term ∧
    ((ensureYearlyDataExists s y u).1).downPayment = s.downPayment := by
  rw [ensureYearlyDataExists]
  cases findYear s.yearlyData y <;> exact ⟨rfl, rfl, rfl⟩

theorem ensure_findYear_ne (s : Scenario) (y : ℕ) (u : ScenarioYearUpdate) {y' : ℕ}
    (hne : y' ≠ y) :
    findYear ((ensureYearlyDataExists s y u).1).yearlyData y' =
      findYear s.yearlyData y' := by
  rw [ensureYearlyDataExists]
  cases hfind : findYear s.yearlyData y with
  | none => exact findYear_append_ne (show y ≠ y' from Ne.symm hne)
  | some d =>
    exact updateFirstYear_findYear_ne (f := fun dd => applyUpdate dd u) (fun e => rfl) hne
      s.yearlyData

theorem ensure_findYear_self (s : Scenario) (y : ℕ) (u : ScenarioYearUpdate) :
    ∃ d', findYear ((ensureYearlyDataExists s y u).1).yearlyData y = some d' ∧
      (findYear s.yearlyData y = none →
        d'.beginningBalance = 0 ∧ d'.endingBalance = 0 ∧ d'.annualCost = 0) := by
  rw [ensureYearlyDataExists]
  cases hfind : findYear s.yearlyData y with
  | none =>
    exact ⟨placeholderRecord y u, findYear_append_self hfind rfl, fun _ => ⟨rfl, rfl, rfl⟩⟩
  | some d =>
    refine ⟨applyUpdate d u,
      updateFirstYear_findYear_eq (f := fun dd => applyUpdate dd u) (fun e => rfl) hfind, ?_⟩
    intro h
    exact Option.noConfusion h

theorem applyPerf_fields (m : ℚ) (e : YearlyPaymentData) :
    (applyPerf m e).year = e.year ∧ (applyPerf m e).beginningBalance = e.beginningBalance ∧
    (applyPerf m e).endingBalance = e.endingBalance ∧
    (applyPerf m e).annualCost = e.annualCost := by
  rw [applyPerf]
  cases e.totalNetWorth <;> exact ⟨rfl, rfl, rfl, rfl⟩

theorem forall₂_trans {α β γ : Type} {r₁ : α → β → Prop} {r₂ : β → γ → Prop}
    {r₃ : α → γ → Prop} (h : ∀ a b c, r₁ a b → r₂ b c → r₃ a c) :
    ∀ {l₁ : List α} {l₂ : List β} {l₃ : List γ},
      List.Forall₂ r₁ l₁ l₂ → List.Forall₂ r₂ l₂ l₃ → List.Forall₂ r₃ l₁ l₃ := by
  intro l₁ l₂ l₃ h₁ h₂
  induction h₁ generalizing l₃ with
  | nil =>
    cases h₂
    exact List.Forall₂.nil
  | cons hab htail ih =>
    cases h₂ with
    | cons hbc htail₂ => exact List.Forall₂.cons (h _ _ _ hab hbc) (ih htail₂)

/-- The performance pass (Step 3) keeps identity fields, keeps records of
other years untouched, and only writes `performancePercentage` into the
current year's record. -/
theorem perfPass_forall₂ (ps : List Scenario) (y : ℕ) (mw : Option ℚ) :
    List.Forall₂ (fun s s' =>
      s'.name = s.name ∧ s'.term = s.term ∧ s'.downPayment = s.downPayment ∧
      (∀ y', y' ≠ y → findYear s'.yearlyData y' = findYear s.yearlyData y') ∧
      (∀ d, findYear s.yearlyData y = some d → ∃ d', findYear s'.yearlyData y = some d' ∧
        d'.beginningBalance = d.beginningBalance ∧ d'.endingBalance = d.endingBalance ∧
        d'.annualCost = d.annualCost))
      ps (calculatePerformancePercentage ps y mw) := by
  cases mw with
  | none =>
    simp only [calculatePerformancePercentage]
    rw [List.forall₂_map_right_iff]
    refine List.forall₂_same.mpr (fun s _ => ⟨rfl, rfl, rfl, ?_, ?_⟩)
    · intro y' hy'
      exact updateFirstYear_findYear_ne
        (f := fun d => { d with performancePercentage := some 0 }) (fun e => rfl) hy'
        s.yearlyData
    · intro d hd
      exact ⟨_, updateFirstYear_findYear_eq
        (f := fun d => { d with performancePercentage := some 0 }) (fun e => rfl) hd,
        rfl, rfl, rfl⟩
  | some m =>
    simp only [calculatePerformancePercentage]
    rw [List.forall₂_map_right_iff]
    refine List.forall₂_same.mpr (fun s _ => ⟨rfl, rfl, rfl, ?_, ?_⟩)
    · intro y' hy'
      exact updateFirstYear_findYear_ne (f := applyPerf m)
        (fun e => (applyPerf_fields m e).1) hy' s.yearlyData
    · intro d hd
      refine ⟨applyPerf m d, updateFirstYear_findYear_eq (f := applyPerf m)
        (fun e => (applyPerf_fields m e).1) hd, ?_, ?_, ?_⟩
      · exact (applyPerf_fields m d).2.1
      · exact (applyPerf_fields m d).2.2.1
      · exact (applyPerf_fields m d).2.2.2

/-- Shape of the Step-2 fold: it appends, in order, one
`ensureYearlyDataExists`-processed scenario per input scenario. -/
theorem engineStep2_shape (iv : String → ℚ) (rate : ℚ) (y : ℕ) (mac : ℚ) :
    ∀ (ps l0 : List Scenario) (cum : String → ℚ) (mw : Option ℚ),
      ∃ t, (ps.foldl (engineStep2Fold iv rate y mac) (l0, cum, mw)).1 = l0 ++ t ∧
        List.Forall₂ (fun s s₁ => ∃ u, s₁ = (ensureYearlyDataExists s y u).1) ps t := by
  intro ps
  induction ps with
  | nil =>
    intro l0 cum mw
    exact ⟨[], by simp, List.Forall₂.nil⟩
  | cons s rest ih =>
    intro l0 cum mw
    rw [List.foldl_cons]
    obtain ⟨t, ht1, ht2⟩ := ih (engineStep2Fold iv rate y mac (l0, cum, mw) s).1
      (engineStep2Fold iv rate y mac (l0, cum, mw) s).2.1
      (engineStep2Fold iv rate y mac (l0, cum, mw) s).2.2
    refine ⟨(ensureYearlyDataExists s y
      (calculateYearlyScenarioUpdate s y mac (cum s.name) (iv s.name) rate)).1 :: t, ?_, ?_⟩
    · rw [ht1, show (engineStep2Fold iv rate y mac (l0, cum, mw) s).1 =
        l0 ++ [(ensureYearlyDataExists s y
          (calculateYearlyScenarioUpdate s y mac (cum s.name) (iv s.name) rate)).1] from rfl]
      simp
    · exact List.Forall₂.cons ⟨_, rfl⟩ ht2

/-- One engine year processes each scenario in place: identity fields are kept,
records of other years are untouched, and the current year's record exists
afterwards — as a zero-balance placeholder when the scenario had no record for
that year. -/
theorem engineYearStep_forall₂ (iv : String → ℚ) (rate : ℚ)
    (st : List Scenario × (String → ℚ)) (y : ℕ) :
    List.Forall₂ (fun s s' =>
      s'.name = s.name ∧ s'.term = s.term ∧ s'.downPayment = s.downPayment ∧
      (∀ y', y' ≠ y → findYear s'.yearlyData y' = findYear s.yearlyData y') ∧
      (∃ d', findYear s'.yearlyData y = some d' ∧
        (findYear s.yearlyData y = none →
          d'.beginningBalance = 0 ∧ d'.endingBalance = 0 ∧ d'.annualCost = 0)))
      st.1 (engineYearStep iv rate st y).1 := by
  obtain ⟨t, ht1, ht2⟩ := engineStep2_shape iv rate y (yearMaxAnnualCost st.1 y) st.1 []
    st.2 none
  have hmid : List.Forall₂ (fun s s₁ =>
      s₁.name = s.name ∧ s₁.term = s.term ∧ s₁.downPayment = s.downPayment ∧
      (∀ y', y' ≠ y → findYear s₁.yearlyData y' = findYear s.yearlyData y') ∧
      (∃ d', findYear s₁.yearlyData y = some d' ∧
        (findYear s.yearlyData y = none →
          d'.beginningBalance = 0 ∧ d'.endingBalance = 0 ∧ d'.annualCost = 0)))
      st.1 t := by
    refine List.Forall₂.imp ?_ ht2
    intro s s₁ hs
    rcases hs with ⟨u, rfl⟩
    rcases ensure_preserves_fields s y u with ⟨h1, h2, h3⟩
    exact ⟨h1, h2, h3, fun y' hy' => ensure_findYear_ne s y u hy', ensure_findYear_self s y u⟩
  have hperf := perfPass_forall₂ t y
    ((st.1.foldl (engineStep2Fold iv rate y (yearMaxAnnualCost st.1 y)) ([], st.2, none)).2.2)
  have hstep : (engineYearStep iv rate st y).1 = calculatePerformancePercentage t y
      ((st.1.foldl (engineStep2Fold iv rate y (yearMaxAnnualCost st.1 y)) ([], st.2, none)).2.2) := by
    have h0 : (engineYearStep iv rate st y).1 =
        calculatePerformancePercentage
          ((st.1.foldl (engineStep2Fold iv rate y (yearMaxAnnualCost st.1 y))
            ([], st.2, none)).1) y
          ((st.1.foldl (engineStep2Fold iv rate y (yearMaxAnnualCost st.1 y))
            ([], st.2, none)).2.2) := rfl
    rw [h0, ht1, List.nil_append]
  rw [hstep]
  refine forall₂_trans ?_ hmid hperf
  intro s s₁ s₂ h₁ h₂
  rcases h₁ with ⟨ha1, ha2, ha3, ha4, d₁, hd₁, hz₁⟩
  rcases h₂ with ⟨hb1, hb2, hb3, hb4, hb5⟩
  refine ⟨hb1.trans ha1, hb2.trans ha2, hb3.trans ha3, ?_, ?_⟩
  · intro y' hy'
    rw [hb4 y' hy', ha4 y' hy']
  · rcases hb5 d₁ hd₁ with ⟨d₂, hd₂, hf1, hf2, hf3⟩
    refine ⟨d₂, hd₂, ?_⟩
    intro hnone
    rcases hz₁ hnone with ⟨hz1, hz2, hz3⟩
    exact ⟨hf1.trans hz1, hf2.trans hz2, hf3.trans hz3⟩

/-- Folding further engine years over a list that avoids `y0` leaves every
scenario's year-`y0` record untouched. -/
theorem engineFold_frame (iv : String → ℚ) (rate : ℚ) (y0 : ℕ) :
    ∀ (ys : List ℕ), (∀ y ∈ ys, y ≠ y0) → ∀ st : List Scenario × (String → ℚ),
      List.Forall₂ (fun s s' => findYear s'.yearlyData y0 = findYear s.yearlyData y0)
        st.1 (ys.foldl (engineYearStep iv rate) st).1 := by
  intro ys
  induction ys with
  | nil =>
    intro _ st
    exact List.forall₂_same.mpr (fun s _ => rfl)
  | cons y rest ih =>
    intro hys st
    rw [List.foldl_cons]
    have h1 := engineYearStep_forall₂ iv rate st y
    have h2 := ih (fun y' hy' => hys y' (List.mem_cons_of_mem y hy'))
      (engineYearStep iv rate st y)
    refine forall₂_trans ?_ h1 h2
    intro a b c hab hbc
    rw [hbc, hab.2.2.2.1 y0 (Ne.symm (hys y (List.mem_cons_self y rest)))]

/-- Folding the engine over the years `k+1 .. k+c` extends the coverage
relation from `k` processed years to `k + c`. -/
theorem engineFold_coverage (iv : String → ℚ) (rate : ℚ) :
    ∀ (c k : ℕ) (st : List Scenario × (String → ℚ)) (os : List Scenario),
      List.Forall₂ (engineCoverageRel k) os st.1 →
      List.Forall₂ (engineCoverageRel (k + c)) os
        ((List.range' (k + 1) c).foldl (engineYearStep iv rate) st).1 := by
  intro c
  induction c with
  | zero =>
    intro k st os h
    simpa using h
  | succ c ih =>
    intro k st os h
    rw [List.range'_succ, List.foldl_cons]
    have h1 := engineYearStep_forall₂ iv rate st (k + 1)
    have hcomp : List.Forall₂ (engineCoverageRel (k + 1)) os
        (engineYearStep iv rate st (k + 1)).1 := by
      refine forall₂_trans ?_ h h1
      intro s0 s s' hcov hstep
      rcases hcov with ⟨hcov1, hcov2⟩
      rcases hstep with ⟨_, _, _, hframe, d', hd', hz⟩
      constructor
      · intro y hy1 hyk
        rcases Nat.lt_or_ge y (k + 1) with hlt | hge
        · have hyk' : y ≤ k := by omega
          rcases hcov1 y hy1 hyk' with ⟨d, hd, hdz⟩
          exact ⟨d, by rw [hframe y (by omega), hd], hdz⟩
        · have hy : y = k + 1 := by omega
          subst hy
          refine ⟨d', hd', ?_⟩
          intro h0
          exact hz (by rw [hcov2 (k + 1) (by omega), h0])
      · intro y hy
        rw [hframe y (by omega), hcov2 y (by omega)]
    have := ih (k + 1) (engineYearStep iv rate st (k + 1)) os hcomp
    rw [show k + 1 + c = k + (c + 1) by omega] at this
    exact this

theorem maxYears_ge_30 : ∀ (l : List Scenario) (a : ℕ), a ≤ l.foldl (fun m s => max m s.term) a := by
  intro l
  induction l with
  | nil => intro a; exact le_refl a
  | cons s t ih =>
    intro a
    calc a ≤ max a s.term := le_max_left a s.term
    _ ≤ t.foldl (fun m s => max m s.term) (max a s.term) := ih (max a s.term)

theorem maxYears_ge_term : ∀ (l : List Scenario) (a : ℕ) (s : Scenario), s ∈ l →
    s.term ≤ l.foldl (fun m s => max m s.term) a := by
  intro l
  induction l with
  | nil =>
    intro a s hs
    exact absurd hs (List.not_mem_nil s)
  | cons e t ih =>
    intro a s hs
    rcases List.mem_cons.mp hs with rfl | hs
    · calc s.term ≤ max a s.term := le_max_right a s.term
      _ ≤ t.foldl (fun m s => max m s.term) (max a s.term) := maxYears_ge_30 t _
    · exact ih (max a e.term) s hs

theorem maxYears_attained : ∀ (l : List Scenario) (a : ℕ),
    l.foldl (fun m s => max m s.term) a = a ∨
      ∃ s ∈ l, l.foldl (fun m s => max m s.term) a = s.term := by
  intro l
  induction l with
  | nil => intro a; exact Or.inl rfl
  | cons e t ih =>
    intro a
    rw [List.foldl_cons]
    rcases ih (max a e.term) with h | ⟨s, hs, h⟩
    · rcases max_choice a e.term with hm | hm
      · rw [hm] at h ⊢
        exact Or.inl h
      · rw [hm] at h ⊢
        exact Or.inr ⟨e, List.mem_cons_self e t, h⟩
    · exact Or.inr ⟨s, List.mem_cons_of_mem e hs, h⟩

/-- C7: the simulation horizon is `max(30, max term)` — it is at least 30, at
least every scenario's term, and equal to 30 or to some scenario's term — and
after the engine runs every scenario has a yearly record for every year
`1..horizon`; a year the input schedule did not cover gets a synthesized
placeholder with zero beginning balance, ending balance and annual cost. -/
theorem c7_horizon_and_placeholders (scenarios : List Scenario) (initialInvestments : ℚ) :
    (30 ≤ maxYears scenarios ∧ (∀ s ∈ scenarios, s.term ≤ maxYears scenarios) ∧
      (maxYears scenarios = 30 ∨ ∃ s ∈ scenarios, maxYears scenarios = s.term)) ∧
    (scenarios ≠ [] →
      List.Forall₂ (engineCoverageRel (maxYears scenarios)) scenarios
        (scenariosWithInvestment scenarios initialInvestments)) := by
  constructor
  · exact ⟨maxYears_ge_30 scenarios 30, fun s hs => maxYears_ge_term scenarios 30 s hs,
      maxYears_attained scenarios 30⟩
  · intro hne
    rw [scenariosWithInvestment,
      if_neg (by have := List.length_pos.mpr hne; omega : ¬ scenarios.length < 1)]
    rw [map_deepCopyScenario]
    have hbase : List.Forall₂ (engineCoverageRel 0) scenarios scenarios := by
      refine List.forall₂_same.mpr (fun s _ => ⟨?_, fun y _ => rfl⟩)
      intro y hy1 hy0
      omega
    have := engineFold_coverage
      (initialInvestmentValuesMap scenarios initialInvestments) INVESTMENT_RATE
      (maxYears scenarios) 0 (scenarios, initialInvestmentValuesMap scenarios initialInvestments)
      scenarios hbase
    simpa using this

/-- Witness for C7 on a one-scenario registry. -/
theorem c7_horizon_and_placeholders_witness :
    [cxScenarioA] ≠ [] ∧
    List.Forall₂ (engineCoverageRel (maxYears [cxScenarioA])) [cxScenarioA]
      (scenariosWithInvestment [cxScenarioA] 0) :=
  ⟨by simp, (c7_horizon_and_placeholders [cxScenarioA] 0).2 (by simp)⟩

/-! ## C3: performance percentage -/

/-- C3 (amended): for a year whose maximum net worth `m` is nonzero, the
performance pass assigns each scenario with net worth `nw` the value
`((nw - m) / |m|) * 100`; this value is never positive and is zero exactly for
the scenarios attaining the maximum, of which at least one exists.  (When the
maximum is zero and a scenario's net worth is nonzero the source instead
assigns the capped value `+100`; see the counterexample.) -/
theorem c3_performance_ranking (ps : List Scenario) (y : ℕ) (m : ℚ) (hm : m ≠ 0)
    (hub : ∀ s ∈ ps, ∀ d, findYear s.yearlyData y = some d →
      ∀ nw, d.totalNetWorth = some nw → nw ≤ m)
    (hat : ∃ s ∈ ps, ∃ d, findYear s.yearlyData y = some d ∧ d.totalNetWorth = some m) :
    (∀ s ∈ ps, ∀ d nw, findYear s.yearlyData y = some d → d.totalNetWorth = some nw →
      ∃ s' ∈ calculatePerformancePercentage ps y (some m),
        ∃ d', findYear s'.yearlyData y = some d' ∧
          d'.performancePercentage = some (((nw - m) / qabs m) * 100) ∧
          ((nw - m) / qabs m) * 100 ≤ 0 ∧
          (((nw - m) / qabs m) * 100 = 0 ↔ nw = m)) ∧
    (∃ s' ∈ calculatePerformancePercentage ps y (some m),
      ∃ d', findYear s'.yearlyData y = some d' ∧ d'.performancePercentage = some 0) := by
  have habs : 0 < qabs m := by
    rw [qabs_eq]
    exact abs_pos.mpr hm
  have hmain : ∀ s ∈ ps, ∀ d nw, findYear s.yearlyData y = some d →
      d.totalNetWorth = some nw →
      ∃ s' ∈ calculatePerformancePercentage ps y (some m),
        ∃ d', findYear s'.yearlyData y = some d' ∧
          d'.performancePercentage = some (((nw - m) / qabs m) * 100) ∧
          ((nw - m) / qabs m) * 100 ≤ 0 ∧
          (((nw - m) / qabs m) * 100 = 0 ↔ nw = m) := by
    intro s hs d nw hfind hnw
    have hle : nw ≤ m := hub s hs d hfind nw hnw
    refine ⟨{ s with yearlyData := updateFirstYear s.yearlyData y (applyPerf m) }, ?_, ?_⟩
    · simp only [calculatePerformancePercentage]
      exact List.mem_map_of_mem _ hs
    · have hfind' : findYear (updateFirstYear s.yearlyData y (applyPerf m)) y =
          some (applyPerf m d) :=
        updateFirstYear_findYear_eq (f := applyPerf m)
          (fun e => (applyPerf_fields m e).1) hfind
      have happ : (applyPerf m d).performancePercentage =
          some (((nw - m) / qabs m) * 100) := by
        simp only [applyPerf, hnw]
        rw [if_neg (ne_of_gt habs)]
      have hq : (nw - m) / qabs m ≤ 0 := by
        rw [div_eq_mul_inv]
        exact mul_nonpos_iff.mpr (Or.inr ⟨by linarith, inv_nonneg.mpr habs.le⟩)
      have hmul : ((nw - m) / qabs m) * 100 ≤ 0 := by linarith
      have hiff : ((nw - m) / qabs m) * 100 = 0 ↔ nw = m := by
        constructor
        · intro h0
          have h1 : (nw - m) / qabs m = 0 := by linarith
          rcases div_eq_zero_iff.mp h1 with h2 | h2
          · linarith [sub_eq_zero.mp h2]
          · exact absurd h2 (ne_of_gt habs)
        · intro h
          rw [h, sub_self, zero_div, zero_mul]
      exact ⟨applyPerf m d, hfind', happ, hmul, hiff⟩
  refine ⟨hmain, ?_⟩
  rcases hat with ⟨s, hs, d, hfind, hnw⟩
  rcases hmain s hs d m hfind hnw with ⟨s', hs', d', hd', hperf, _, _⟩
  refine ⟨s', hs', d', hd', ?_⟩
  rw [hperf, sub_self, zero_div, zero_mul]

/-- Witness for C3 on a single scenario with net worth 5. -/
theorem c3_performance_ranking_witness :
    (5 : ℚ) ≠ 0 ∧
    (∃ s' ∈ calculatePerformancePercentage [cxPerfScenario] 1 (some 5),
      ∃ d', findYear s'.yearlyData 1 = some d' ∧ d'.performancePercentage = some 0) := by
  have hub : ∀ s ∈ [cxPerfScenario], ∀ d, findYear s.yearlyData 1 = some d →
      ∀ nw, d.totalNetWorth = some nw → nw ≤ 5 := by
    intro s hs d hd nw hnw
    rcases List.mem_singleton.mp hs with rfl
    have hd' : d = cxPerfRecord := by
      have : findYear cxPerfScenario.yearlyData 1 = some cxPerfRecord := rfl
      rw [this] at hd
      exact (Option.some.inj hd).symm
    subst hd'
    have : nw = 5 := by
      have h5 : cxPerfRecord.totalNetWorth = some 5 := rfl
      rw [h5] at hnw
      exact (Option.some.inj hnw).symm
    rw [this]
  have hat : ∃ s ∈ [cxPerfScenario], ∃ d, findYear s.yearlyData 1 = some d ∧
      d.totalNetWorth = some 5 :=
    ⟨cxPerfScenario, List.mem_singleton.mpr rfl, cxPerfRecord, rfl, rfl⟩
  exact ⟨by norm_num,
    (c3_performance_ranking [cxPerfScenario] 1 5 (by norm_num) hub hat).2⟩

theorem map_two_exists {α β : Type} {f : α → β} {l : List α} {b₁ b₂ : β}
    (h : l.map f = [b₁, b₂]) : ∃ a₁ a₂, l = [a₁, a₂] ∧ f a₁ = b₁ ∧ f a₂ = b₂ := by
  cases l with
  | nil => simp at h
  | cons x xs =>
    cases xs with
    | nil => simp at h
    | cons y ys =>
      cases ys with
      | nil =>
        simp only [List.map_cons, List.map_nil, List.cons.injEq, and_true] at h
        exact ⟨x, y, rfl, h.1, h.2⟩
      | cons z zs => simp at h

theorem forall₂_findYear_map_eq {y : ℕ} :
    ∀ {l₁ l₂ : List Scenario},
      List.Forall₂ (fun s s' => findYear s'.yearlyData y = findYear s.yearlyData y) l₁ l₂ →
      l₂.map (fun s => (findYear s.yearlyData y).bind (fun d => d.performancePercentage)) =
        l₁.map (fun s => (findYear s.yearlyData y).bind (fun d => d.performancePercentage)) := by
  intro l₁ l₂ h
  induction h with
  | nil => rfl
  | cons hab _ ih => simp [hab, ih]

/-- C3 counterexample: running the full engine on two scenarios — one with
zero net worth and one whose net worth stays negative — makes the year-1
maximum net worth 0, and the negative scenario receives
`performancePercentage = +100 > 0` (the capped `Infinity` of the
`denominator === 0` branch), although its net worth is below the maximum.
All quantities involved are finite. -/
theorem c3_counterexample :
    ∃ s ∈ scenariosWithInvestment [cxScenarioA, cxScenarioB] (-100),
      ∃ d, findYear s.yearlyData 1 = some d ∧
        ∃ p, d.performancePercentage = some p ∧ 0 < p := by
  rw [scenariosWithInvestment, if_neg (by norm_num), map_deepCopyScenario]
  have hmax : maxYears [cxScenarioA, cxScenarioB] = 30 := rfl
  rw [hmax, show List.range' 1 30 = 1 :: List.range' 2 29 from rfl]
  simp only [List.foldl_cons]
  have hframe := engineFold_frame
    (initialInvestmentValuesMap [cxScenarioA, cxScenarioB] (-100)) INVESTMENT_RATE 1
    (List.range' 2 29)
    (by
      intro y hy
      rcases List.mem_range'.mp hy with ⟨i, hi, hyi⟩
      omega)
    (engineYearStep (initialInvestmentValuesMap [cxScenarioA, cxScenarioB] (-100))
      INVESTMENT_RATE
      ([cxScenarioA, cxScenarioB], initialInvestmentValuesMap [cxScenarioA, cxScenarioB] (-100))
      1)
  have heval : ((engineYearStep (initialInvestmentValuesMap [cxScenarioA, cxScenarioB] (-100))
      INVESTMENT_RATE
      ([cxScenarioA, cxScenarioB], initialInvestmentValuesMap [cxScenarioA, cxScenarioB] (-100))
      1).1).map
      (fun s => (findYear s.yearlyData 1).bind (fun d => d.performancePercentage)) =
      [some 0, some 100] := by
    norm_num [engineYearStep, engineStep2Fold, calculatePerformancePercentage,
      calculateYearlyScenarioUpdate, ensureYearlyDataExists, applyUpdate, placeholderRecord,
      applyPerf, updateFirstYear, inactiveCore, yearMaxAnnualCost, initialInvestmentValuesMap,
      INVESTMENT_RATE, findYear, maxOptQ, qmax, qabs,
      cxScenarioA, cxScenarioB, zeroPrincipalRecord, List.find?]
  have hout := (forall₂_findYear_map_eq hframe).trans heval
  obtain ⟨a, b, hl, ha, hb⟩ := map_two_exists hout
  rw [hl]
  refine ⟨b, List.mem_cons_of_mem a (List.mem_cons_self b []), ?_⟩
  have hb' : (findYear b.yearlyData 1).bind (fun d => d.performancePercentage) =
      some 100 := hb
  rcases hfb : findYear b.yearlyData 1 with _ | d
  · rw [hfb] at hb'
    simp at hb'
  · rw [hfb] at hb'
    simp only [Option.some_bind] at hb'
    exact ⟨d, rfl, 100, hb', by norm_num⟩
